import Mathlib

/-!
Shallow embedding of the audio-metadata-report utility (scan.py and
convert.py): the CDJ compatibility rule table, the compatibility evaluator
`check_compatibility`, the report generator `generate_report`, the convert
stage's line-oriented report parsing loop from `process_directory`, and the
conversion-parameter planner `get_conversion_params`.

Modelling conventions:
* Python strings are `List Char` (abbreviated `Str`); `str` transcribes a
  literal.
* Python ints are `Nat`; Python floats (bitrate in kbps, file size in MB)
  are abstracted as `Nat`: the program only compares them against integer
  thresholds and round-trips them through their textual representation,
  and Python float repr/parse round-trips exactly.
* Optional metadata values (`None` in Python) are `Option Nat`; Python
  truthiness of such a value (`if metadata['bitrate']:`) is "present and
  nonzero".
* Fallible operations (the `ZeroDivisionError` of the compatibility-rate
  line, `int()` conversions caught by `except`) return `Option`.
-/

abbrev Str := List Char

/-- Characters of a Lean string literal; used to transcribe the Python
string literals of the source. -/
def str (s : String) : Str := s.data

/-- Decimal digit character (argument below 10 at every use site). -/
def digitChar (d : Nat) : Char := Char.ofNat (48 + d)

/-- Fuel-driven big-endian decimal rendering of a natural number. -/
def natReprAux : Nat → Nat → Str
  | 0, _ => []
  | fuel + 1, n =>
    if n < 10 then [digitChar n] else natReprAux fuel (n / 10) ++ [digitChar (n % 10)]

/-- Models Python `str(n)` for a nonnegative integer `n`. -/
def natRepr (n : Nat) : Str := natReprAux (n + 1) n

/-- Models Python `str(v)` for an optional integer: `str(None) = "None"`. -/
def optRepr : Option Nat → Str
  | none => str "None"
  | some n => natRepr n

/-- Models Python `int(s)` on the tokens occurring in reports: succeeds
exactly on nonempty all-digit strings; tokens such as "None" raise
`ValueError`, modelled as `none`. -/
def pyInt? (s : Str) : Option Nat :=
  if s ≠ [] ∧ s.all Char.isDigit then
    some (s.foldl (fun a c => 10 * a + (c.toNat - 48)) 0)
  else none

/-- Models Python `s.split()[0]` (whitespace split) with the `IndexError`
on an all-whitespace string mapped to `none`. -/
def firstToken (s : Str) : Option Str :=
  match s.dropWhile Char.isWhitespace with
  | [] => none
  | c :: cs => some ((c :: cs).takeWhile (fun d => !d.isWhitespace))

/-- Models Python `s.strip()`. -/
def pyStrip (s : Str) : Str :=
  ((s.dropWhile Char.isWhitespace).reverse.dropWhile Char.isWhitespace).reverse

/-- Models Python `sep.join(parts)`. -/
def joinSep (sep : Str) : List Str → Str
  | [] => []
  | [x] => x
  | x :: y :: t => x ++ sep ++ joinSep sep (y :: t)

/-- Models `"\n".join(report)` from generate_report. -/
def joinNl (entries : List Str) : Str := joinSep [Char.ofNat 10] entries

/-- Models Python `content.split('\n')` from process_directory. -/
def splitOnNl : Str → List Str
  | [] => [[]]
  | c :: cs =>
    if c = Char.ofNat 10 then [] :: splitOnNl cs
    else
      match splitOnNl cs with
      | [] => [[c]]
      | t :: ts => (c :: t) :: ts

/-- Models the Python repr of a list of ints, e.g. "[44100, 48000]", as
interpolated into the violation messages. -/
def pyListRepr (l : List Nat) : Str :=
  ('[' :: joinSep (str ", ") (l.map natRepr)) ++ [']']

/-- Models `f"{x:.1f}"` applied to `compatible / total * 100` in the
compatibility-rate line (one decimal digit; the exact float rounding is
abstracted by truncation — this line is never parsed back). -/
def pctRepr (compatible total : Nat) : Str :=
  natRepr (compatible * 1000 / total / 10) ++ ['.'] ++ natRepr (compatible * 1000 / total % 10)

/-- One entry of the CDJ_REQUIREMENTS dict: allowed sample rates, bit
depths and channel counts (`none` models the Python value `None`), and the
bitrate rule as a (min, optional max) pair. -/
structure Requirements where
  sample_rates : Option (List Nat)
  bit_depths : Option (List Nat)
  channels : Option (List Nat)
  bitrate : Option (Nat × Option Nat)
  deriving Repr, DecidableEq

/-- The CDJ_REQUIREMENTS dict (identical in scan.py and convert.py) as a
partial map from format key to rule; `none` models a key not in the dict. -/
def CDJ_REQUIREMENTS : Str → Option Requirements := fun k =>
  if k = str "wav" then some ⟨some [44100, 48000], some [16, 24], some [2], none⟩
  else if k = str "mp3" then some ⟨some [44100], none, some [2], some (32, some 320)⟩
  else if k = str "aiff" then some ⟨some [44100, 48000], some [16, 24], some [2], none⟩
  else if k = str "flac" then some ⟨some [44100, 48000], some [16, 24], some [2], none⟩
  else if k = str "m4a" then some ⟨some [44100, 48000], none, some [2], some (256, none)⟩
  else none

/-- Python truthiness of an optional list (`if reqs['sample_rates']:`):
present and nonempty. -/
def truthyList (o : Option (List Nat)) : Bool := !(o.getD []).isEmpty

/-- Python membership `v in l` for an optional value against an int list:
`None in l` is always false. -/
def optMem : Option Nat → List Nat → Bool
  | some n, l => l.contains n
  | none, _ => false

/-- Models `file_type.lstrip('.')`. -/
def lstripDot (s : Str) : Str := s.dropWhile (· = '.')

/-- An audio-file record as built by get_audio_metadata: the metadata dict
before compatibility enrichment. -/
structure Metadata where
  filename : Str
  file_type : Str
  file_size_mb : Nat
  sample_rate : Option Nat
  bit_depth : Option Nat
  channels : Option Nat
  bitrate : Option Nat
  format : Option Str
  deriving Repr, DecidableEq

/-- The "Format not supported by CDJs" violation string. -/
def fmtIssue : Str := str "Format not supported by CDJs"

/-- The sample-rate violation string of check_compatibility. -/
def srIssue (v : Option Nat) (allowed : List Nat) : Str :=
  str "Sample rate " ++ optRepr v ++ str " Hz not supported. Required: " ++
    pyListRepr allowed ++ str " Hz"

/-- The bit-depth violation string of check_compatibility. -/
def bdIssue (v : Option Nat) (allowed : List Nat) : Str :=
  str "Bit depth " ++ optRepr v ++ str " bits not supported. Required: " ++
    pyListRepr allowed ++ str " bits"

/-- The channel violation string of check_compatibility. -/
def chIssue (allowed : List Nat) : Str :=
  str "Channel configuration not supported. Required: " ++ pyListRepr allowed ++
    str " channels"

/-- The low-bitrate violation string of check_compatibility. -/
def brLowIssue (b mn : Nat) : Str :=
  str "Bitrate " ++ natRepr b ++ str " kbps too low. Minimum required: " ++
    natRepr mn ++ str " kbps"

/-- The high-bitrate violation string of check_compatibility. -/
def brHighIssue (b mx : Nat) : Str :=
  str "Bitrate " ++ natRepr b ++ str " kbps too high. Maximum allowed: " ++
    natRepr mx ++ str " kbps"

/-- The bitrate section of check_compatibility (scan.py lines 82-89):
guarded by Python truthiness of the rule, of the metadata bitrate, and of
each bound. -/
def bitrateIssues (rule : Option (Nat × Option Nat)) (bitrate : Option Nat)
    (issues : List Str) : List Str :=
  match rule with
  | none => issues
  | some (min_bitrate, max_bitrate) =>
    match bitrate with
    | none => issues
    | some b =>
      if b ≠ 0 then
        let issues := if min_bitrate ≠ 0 ∧ b < min_bitrate then
            issues ++ [brLowIssue b min_bitrate] else issues
        match max_bitrate with
        | some mx => if mx ≠ 0 ∧ mx < b then issues ++ [brHighIssue b mx] else issues
        | none => issues
      else issues

/-- check_compatibility from scan.py: returns (is_compatible, issues). -/
def check_compatibility (metadata : Metadata) : Bool × List Str :=
  match CDJ_REQUIREMENTS (lstripDot metadata.file_type) with
  | none => (false, [fmtIssue])
  | some reqs =>
    let issues : List Str := []
    let issues := if truthyList reqs.sample_rates ∧
        ¬ optMem metadata.sample_rate (reqs.sample_rates.getD []) then
      issues ++ [srIssue metadata.sample_rate (reqs.sample_rates.getD [])] else issues
    let issues := if truthyList reqs.bit_depths ∧
        ¬ optMem metadata.bit_depth (reqs.bit_depths.getD []) then
      issues ++ [bdIssue metadata.bit_depth (reqs.bit_depths.getD [])] else issues
    let issues := if truthyList reqs.channels ∧
        ¬ optMem metadata.channels (reqs.channels.getD []) then
      issues ++ [chIssue (reqs.channels.getD [])] else issues
    let issues := bitrateIssues reqs.bitrate metadata.bitrate issues
    (issues.isEmpty, issues)

/-- A record enriched by generate_report with the evaluator's verdict
(scan.py lines 201-203) before being serialized. -/
structure EnrichedMetadata extends Metadata where
  is_compatible : Bool
  compatibility_issues : List Str
  deriving Repr, DecidableEq

/-- The enrichment step of generate_report's scan loop. -/
def enrich (m : Metadata) : EnrichedMetadata :=
  { m with
    is_compatible := (check_compatibility m).fst
    compatibility_issues := (check_compatibility m).snd }

/-- The per-file block of the "Detailed File Information" section
(scan.py lines 255-270), ending with the blank separator line. -/
def detailBlock (m : EnrichedMetadata) : List Str :=
  [str "File: " ++ m.filename,
   str "  Type: " ++ m.file_type,
   str "  Format: " ++ (match m.format with | some f => f | none => str "N/A"),
   str "  Size: " ++ natRepr m.file_size_mb ++ str " MB",
   str "  Sample Rate: " ++ optRepr m.sample_rate ++ str " Hz",
   str "  Bit Depth: " ++ optRepr m.bit_depth ++ str " bits",
   str "  Channels: " ++ optRepr m.channels]
  ++ (match m.bitrate with
      | some b => if b ≠ 0 then [str "  Bitrate: " ++ natRepr b ++ str " kbps"] else []
      | none => [])
  ++ [str "  CDJ Compatible: " ++ (if m.is_compatible then str "Yes" else str "No")]
  ++ (if m.compatibility_issues = [] then []
      else str "  Compatibility Issues:" ::
        m.compatibility_issues.map (fun i => str "    - " ++ i))
  ++ [[]]

/-- Keys of a defaultdict in insertion order (first occurrence first). -/
def firstOccs : List Str → List Str
  | [] => []
  | x :: xs => x :: firstOccs (xs.filter (fun y => y ≠ x))
termination_by l => l.length
decreasing_by
  simp only [List.length_cons]
  exact Nat.lt_succ_of_le (List.length_filter_le _ _)

/-- One summary-statistics section: one line per distinct key, in first
occurrence order, with its count. -/
def statLines (unit : Str) (keys : List Str) : List Str :=
  (firstOccs keys).map (fun k =>
    str "  " ++ k ++ unit ++ str ": " ++ natRepr (keys.count k) ++ str " files")

/-- The sample-rate statistics keys: `str(rate)` for every record whose
sample rate is truthy (scan.py lines 206-207); analogously for bit depth
and channels. -/
def numStatKeys (field : Metadata → Option Nat) (files : List Metadata) : List Str :=
  files.filterMap (fun m =>
    match field m with
    | some r => if r ≠ 0 then some (natRepr r) else none
    | none => none)

/-- The report entries preceding the Detailed File Information blocks
(scan.py lines 220-254), in order; entries Python appends with an embedded
or trailing `"\n"` keep it. -/
def summaryEntries (now directory_path : Str) (audio_files : List EnrichedMetadata)
    (error_files : List Str) : List Str :=
  let files := audio_files.map (·.toMetadata)
  let compatible := (audio_files.filter (·.is_compatible)).length
  let incompatible := (audio_files.filter (fun m => !m.is_compatible)).length
  let fmtKeys := audio_files.map (·.file_type)
  [str "=== Audio Files Technical Report ===\n",
   str "Generated on: " ++ now,
   str "Directory scanned: " ++ directory_path,
   str "Total audio files found: " ++ natRepr audio_files.length]
  ++ [if error_files = [] then str "All files processed successfully.\n"
      else str "Files with errors: " ++ natRepr error_files.length ++ str "\n"]
  ++ [str "=== CDJ Compatibility Summary ===\n",
      str "Compatible files: " ++ natRepr compatible,
      str "Incompatible files: " ++ natRepr incompatible,
      str "Compatibility rate: " ++ pctRepr compatible audio_files.length ++ str "%\n",
      str "=== Summary Statistics ===\n",
      str "File Types:"]
  ++ statLines (str "") fmtKeys
  ++ [str "\nSample Rates:"]
  ++ statLines (str " Hz") (numStatKeys (·.sample_rate) files)
  ++ [str "\nBit Depths:"]
  ++ statLines (str " bits") (numStatKeys (·.bit_depth) files)
  ++ [str "\nChannel Configurations:"]
  ++ statLines (str " channels") (numStatKeys (·.channels) files)
  ++ [str "\n=== Detailed File Information ===\n"]

/-- The trailing error section of the report (scan.py lines 272-276). -/
def errorEntries (error_files : List Str) : List Str :=
  if error_files = [] then []
  else str "\n=== Files with Errors ===\n" :: error_files.map (fun e => str "- " ++ e)

/-- The list of strings appended to `report` by generate_report, in order:
the summary sections, one detail block per file, and the error section. -/
def reportEntries (now directory_path : Str) (audio_files : List EnrichedMetadata)
    (error_files : List Str) : List Str :=
  summaryEntries now directory_path audio_files error_files
  ++ audio_files.flatMap detailBlock
  ++ errorEntries error_files

/-- generate_report from scan.py, over the records the scan produced
(directory traversal and metadata extraction are external collaborators).
The compatibility-rate line divides by the number of records with no
guard; on an empty record list Python raises ZeroDivisionError before any
report text exists, modelled as `none`. -/
def generate_report (now directory_path : Str) (files : List Metadata)
    (error_files : List Str) : Option Str :=
  let audio_files := files.map enrich
  if audio_files.length = 0 then none
  else some (joinNl (reportEntries now directory_path audio_files error_files))

/-- A record re-hydrated by process_directory's parsing loop: each field
is `none` while its dict key is absent; a key set to Python `None` is
`some none`. -/
structure ParsedRecord where
  filename : Option Str := none
  file_type : Option Str := none
  sample_rate : Option (Option Nat) := none
  bit_depth : Option (Option Nat) := none
  channels : Option (Option Nat) := none
  bitrate : Option (Option Nat) := none
  is_compatible : Option Bool := none
  deriving Repr, DecidableEq

/-- The empty dict `{}` starting process_directory's parse state. -/
def emptyRec : ParsedRecord := {}

/-- Models `int(line[k:].split()[0])` with both `IndexError` and
`ValueError` caught as `None`. -/
def parseIntField (s : Str) : Option Nat := (firstToken s).bind pyInt?

/-- Models the `None if value == 'None' else int(value)` pattern of the
Bit Depth and Bitrate branches (for Bitrate the source uses `float`,
abstracted over naturals), errors caught as `None`. -/
def parseNoneOrInt (s : Str) : Option Nat :=
  match firstToken s with
  | none => none
  | some v => if v = str "None" then none else pyInt? v

/-- The elif chain of process_directory's parsing loop for a line that is
not a "File: " line (convert.py lines 169-194). -/
def applyField (cur : ParsedRecord) (line : Str) : ParsedRecord :=
  if (str "  Type: ").isPrefixOf line then
    { cur with file_type := some (pyStrip (line.drop 8)) }
  else if (str "  Sample Rate: ").isPrefixOf line then
    { cur with sample_rate := some (parseIntField (line.drop 14)) }
  else if (str "  Bit Depth: ").isPrefixOf line then
    { cur with bit_depth := some (parseNoneOrInt (line.drop 12)) }
  else if (str "  Channels: ").isPrefixOf line then
    { cur with channels := some (pyInt? (pyStrip (line.drop 11))) }
  else if (str "  Bitrate: ").isPrefixOf line then
    { cur with bitrate := some (parseNoneOrInt (line.drop 10)) }
  else if (str "  CDJ Compatible: ").isPrefixOf line then
    { cur with is_compatible := some (pyStrip (line.drop 17) == str "Yes") }
  else cur

/-- Append the current record if the dict is truthy (nonempty), as in
`if current_metadata: audio_files.append(current_metadata)`. -/
def flushIf (cur : ParsedRecord) : List ParsedRecord :=
  if cur = emptyRec then [] else [cur]

/-- The report-parsing loop of process_directory (convert.py lines
163-197), including the final flush of the last record. -/
def parseLoop : List Str → ParsedRecord → List ParsedRecord
  | [], cur => flushIf cur
  | l :: ls, cur =>
    if (str "File: ").isPrefixOf l then
      flushIf cur ++ parseLoop ls { filename := some (pyStrip (l.drop 6)) }
    else
      parseLoop ls (applyField cur l)

/-- Re-hydrate the per-file records from a report text: split on newlines
and run the parsing loop from the empty dict. -/
def parse_report (content : Str) : List ParsedRecord :=
  parseLoop (splitOnNl content) emptyRec

/-- format_map.get(file_type, 'wav') from get_conversion_params; note the
map has no 'aiff' key, so an 'aiff' file falls back to the 'wav' rule key. -/
def format_map_get (file_type : Str) : Str :=
  if file_type = str "aif" then str "aiff"
  else if file_type = str "wav" then str "wav"
  else if file_type = str "mp3" then str "mp3"
  else if file_type = str "flac" then str "flac"
  else if file_type = str "m4a" then str "m4a"
  else str "wav"

/-- get_conversion_params from convert.py: target format plus ffmpeg
parameter tokens. The dict lookups `CDJ_REQUIREMENTS[cdj_key][...]` cannot
miss because cdj_key is always one of the five table keys; the `getD`
defaults are never reached. -/
def get_conversion_params (metadata : Metadata) : Str × List Str :=
  let file_type := lstripDot metadata.file_type
  let cdj_key := format_map_get file_type
  let reqs := (CDJ_REQUIREMENTS cdj_key).getD ⟨none, none, none, none⟩
  let base : Str × List Str :=
    if file_type = str "wav" ∨ file_type = str "aif" ∨ file_type = str "aiff" then
      ((if file_type = str "wav" then str "wav" else str "aiff"),
       if ¬ optMem metadata.bit_depth (reqs.bit_depths.getD []) then
         [str "-acodec", str "pcm_s24le"] else [])
    else if file_type = str "flac" then
      (str "flac",
       if ¬ optMem metadata.bit_depth (reqs.bit_depths.getD []) then
         [str "-acodec", str "flac"] else [])
    else if file_type = str "mp3" then
      (str "mp3",
       match metadata.bitrate with
       | some b => if b ≠ 0 ∧ b < 320 then
           [str "-acodec", str "libmp3lame", str "-b:a", str "320k"] else []
       | none => [])
    else if file_type = str "m4a" then
      (str "m4a",
       match metadata.bitrate with
       | some b => if b ≠ 0 ∧ b < 256 then
           [str "-acodec", str "aac", str "-b:a", str "256k"] else []
       | none => [])
    else (str "wav", [str "-acodec", str "pcm_s24le"])
  let params := base.snd
  let params := if ¬ optMem metadata.sample_rate (reqs.sample_rates.getD []) then
      params ++ [str "-ar", str "44100"] else params
  let params := if metadata.channels ≠ some 2 then params ++ [str "-ac", str "2"] else params
  (base.fst, params)

/-- The flag read with default in `f.get('is_compatible', True)`. -/
def getIsCompatible (r : ParsedRecord) : Bool := r.is_compatible.getD true

/-- The records selected for conversion by process_directory (convert.py
line 200): the only ones for which a plan is derived and a transcode run. -/
def incompatibleFiles (rs : List ParsedRecord) : List ParsedRecord :=
  rs.filter (fun f => !getIsCompatible f)

/-- The audio extensions accepted by the scan loop (scan.py line 195);
every record generate_report serializes has its file_type drawn from this
set, since records are only built for paths whose lowercased suffix is in
it. -/
def audioExtensions : List Str :=
  [str ".mp3", str ".wav", str ".wave", str ".flac", str ".aif", str ".aiff",
   str ".m4a", str ".ogg"]

/-- Well-formedness facts true of every record the scan stage produces:
the file type is one of the scanned extensions (hence dot-led,
whitespace-free and newline-free), and the free-text fields carry no
newline (they come from single path components and fixed mutagen labels). -/
def scanWF (m : Metadata) : Prop :=
  m.file_type ∈ audioExtensions ∧
  Char.ofNat 10 ∉ m.filename ∧
  (match m.format with
   | some f => Char.ofNat 10 ∉ f
   | none => True)

/-- The parsed image of a serialized record: what process_directory's
parser recovers for a record written by generate_report — the same file
type, sample rate, bit depth, channel count and compatibility flag, and
the same bitrate whenever a bitrate line was written (the line is written
exactly for a truthy bitrate). -/
def recordOf (m : Metadata) : ParsedRecord :=
  { filename := some (pyStrip m.filename)
    file_type := some m.file_type
    sample_rate := some m.sample_rate
    bit_depth := some m.bit_depth
    channels := some m.channels
    bitrate := match m.bitrate with
      | some b => if b = 0 then none else some (some b)
      | none => none
    is_compatible := some (check_compatibility m).fst }

/-! Character and decimal-numeral lemmas. -/

theorem digitChar_spec (d : Nat) (h : d < 10) :
    (digitChar d).isDigit = true ∧ (digitChar d).toNat - 48 = d := by
  interval_cases d <;> exact ⟨by decide, by decide⟩

theorem isDigit_ne (c d : Char) (hc : c.isDigit = true) (hd : d.isDigit = false) : c ≠ d := by
  intro e
  rw [e, hd] at hc
  cases hc

theorem isDigit_not_ws (c : Char) (hc : c.isDigit = true) : c.isWhitespace = false := by
  by_contra hws
  rw [Bool.not_eq_false, Char.isWhitespace] at hws
  simp only [Bool.or_eq_true, decide_eq_true_eq] at hws
  rcases hws with ((h | h) | h) | h <;> (subst h; exact absurd hc (by decide))

theorem natReprAux_ne_nil (fuel n : Nat) (h : n < fuel) : natReprAux fuel n ≠ [] := by
  cases fuel with
  | zero => omega
  | succ f =>
    rw [natReprAux]
    by_cases h10 : n < 10 <;> simp [h10]

theorem natReprAux_digits (fuel n : Nat) :
    ∀ c ∈ natReprAux fuel n, c.isDigit = true := by
  induction fuel generalizing n with
  | zero => intro c hc; simp [natReprAux] at hc
  | succ f ih =>
    intro c hc
    rw [natReprAux] at hc
    by_cases h10 : n < 10
    · simp [h10] at hc
      rw [hc]
      exact (digitChar_spec n h10).1
    · simp [h10] at hc
      rcases hc with hc | hc
      · exact ih (n / 10) c hc
      · rw [hc]
        exact (digitChar_spec (n % 10) (Nat.mod_lt n (by omega))).1

theorem pyVal_append_digit (xs : Str) (c : Char) :
    (xs ++ [c]).foldl (fun a c => 10 * a + (c.toNat - 48)) 0 =
      10 * (xs.foldl (fun a c => 10 * a + (c.toNat - 48)) 0) + (c.toNat - 48) := by
  rw [List.foldl_append]
  rfl

theorem natReprAux_val (fuel n : Nat) (h : n < fuel) :
    (natReprAux fuel n).foldl (fun a c => 10 * a + (c.toNat - 48)) 0 = n := by
  induction fuel generalizing n with
  | zero => omega
  | succ f ih =>
    rw [natReprAux]
    by_cases h10 : n < 10
    · simp only [h10, if_true, List.foldl]
      rw [(digitChar_spec n h10).2]
      omega
    · simp only [h10, if_false]
      rw [pyVal_append_digit]
      have hdiv : n / 10 < f := by
        have h1 : n / 10 < n := Nat.div_lt_self (by omega) (by omega)
        omega
      rw [ih (n / 10) hdiv, (digitChar_spec (n % 10) (Nat.mod_lt n (by omega))).2]
      omega

theorem natRepr_ne_nil (n : Nat) : natRepr n ≠ [] :=
  natReprAux_ne_nil (n + 1) n (Nat.lt_succ_self n)

theorem natRepr_digits (n : Nat) : ∀ c ∈ natRepr n, c.isDigit = true :=
  natReprAux_digits (n + 1) n

theorem pyInt_natRepr (n : Nat) : pyInt? (natRepr n) = some n := by
  rw [pyInt?, if_pos]
  · rw [natRepr, natReprAux_val (n + 1) n (Nat.lt_succ_self n)]
  · refine ⟨natRepr_ne_nil n, ?_⟩
    rw [List.all_eq_true]
    exact natRepr_digits n

theorem natRepr_head_digit (n : Nat) :
    ∃ c cs, natRepr n = c :: cs ∧ c.isDigit = true := by
  obtain ⟨c, cs, h⟩ := List.exists_cons_of_ne_nil (natRepr_ne_nil n)
  exact ⟨c, cs, h, natRepr_digits n c (by rw [h]; exact List.mem_cons_self c cs)⟩

theorem natRepr_ne_None (n : Nat) : natRepr n ≠ str "None" := by
  obtain ⟨c, cs, hrepr, hdig⟩ := natRepr_head_digit n
  rw [hrepr]
  intro e
  have hc : c = 'N' := (List.cons.injEq _ _ _ _ ▸ e).1
  rw [hc] at hdig
  cases hdig

/-! Whitespace token lemmas for the Python split/strip/int models. -/

theorem dropWhile_eq_self_of_all {p : Char → Bool} {xs : Str}
    (h : ∀ x ∈ xs, p x = false) : xs.dropWhile p = xs := by
  cases xs with
  | nil => rfl
  | cons c cs => rw [List.dropWhile_cons, h c (List.mem_cons_self c cs)]; simp

theorem takeWhile_all_append {p : Char → Bool} (xs : Str) (y : Char) (r : Str)
    (hxs : ∀ x ∈ xs, p x = true) (hy : p y = false) :
    (xs ++ y :: r).takeWhile p = xs := by
  induction xs with
  | nil => simp [List.takeWhile_cons, hy]
  | cons c cs ih =>
    rw [List.cons_append, List.takeWhile_cons, hxs c (List.mem_cons_self c cs)]
    simp only [if_true]
    rw [ih (fun x hx => hxs x (List.mem_cons_of_mem c hx))]

theorem firstToken_digit_token (n : Nat) (r : Str) :
    firstToken (' ' :: (natRepr n ++ ' ' :: r)) = some (natRepr n) := by
  obtain ⟨c, cs, hrepr, hdig⟩ := natRepr_head_digit n
  rw [firstToken]
  rw [List.dropWhile_cons]
  simp only [show (' '.isWhitespace) = true from rfl, if_true]
  rw [hrepr, List.cons_append, List.dropWhile_cons, isDigit_not_ws c hdig]
  simp only [Bool.false_eq_true, if_false, ← List.cons_append, ← hrepr]
  have htake : ((natRepr n ++ ' ' :: r).takeWhile (fun d => !d.isWhitespace)) = natRepr n := by
    apply takeWhile_all_append
    · intro x hx
      simp [isDigit_not_ws x (natRepr_digits n x hx)]
    · decide
  rw [hrepr] at htake ⊢
  rw [List.cons_append] at htake ⊢
  simp [htake]

theorem parseIntField_sr (v : Option Nat) :
    parseIntField (' ' :: (optRepr v ++ str " Hz")) = v := by
  cases v with
  | none => decide
  | some n =>
    rw [parseIntField, optRepr, show str " Hz" = ' ' :: str "Hz" from rfl,
      firstToken_digit_token n (str "Hz")]
    simp [pyInt_natRepr n]

theorem parseNoneOrInt_num (n : Nat) (tail : Str) :
    parseNoneOrInt (' ' :: (natRepr n ++ ' ' :: tail)) = some n := by
  rw [parseNoneOrInt, firstToken_digit_token n tail]
  simp [natRepr_ne_None n, pyInt_natRepr n]

theorem parseNoneOrInt_bd (v : Option Nat) :
    parseNoneOrInt (' ' :: (optRepr v ++ str " bits")) = v := by
  cases v with
  | none => decide
  | some n =>
    rw [optRepr, show str " bits" = ' ' :: str "bits" from rfl]
    exact parseNoneOrInt_num n (str "bits")

theorem parseNoneOrInt_br (b : Nat) :
    parseNoneOrInt (' ' :: (natRepr b ++ str " kbps")) = some b := by
  rw [show str " kbps" = ' ' :: str "kbps" from rfl]
  exact parseNoneOrInt_num b (str "kbps")

theorem pyStrip_space (s : Str) : pyStrip (' ' :: s) = pyStrip s := by
  rw [pyStrip, pyStrip, List.dropWhile_cons]
  simp only [show (' '.isWhitespace) = true from rfl, if_true]

theorem pyStrip_of_no_ws (s : Str) (h : ∀ c ∈ s, c.isWhitespace = false) :
    pyStrip s = s := by
  rw [pyStrip, dropWhile_eq_self_of_all h, dropWhile_eq_self_of_all ?_, List.reverse_reverse]
  intro c hc
  exact h c (List.mem_reverse.mp hc)

theorem pyStrip_natRepr (n : Nat) : pyStrip (natRepr n) = natRepr n :=
  pyStrip_of_no_ws _ (fun c hc => isDigit_not_ws c (natRepr_digits n c hc))

theorem chVal (v : Option Nat) : pyInt? (pyStrip (' ' :: optRepr v)) = v := by
  cases v with
  | none => decide
  | some n => rw [optRepr, pyStrip_space, pyStrip_natRepr, pyInt_natRepr]

/-! Prefix-matching lemmas for the line-oriented parsing loop. -/

theorem isPrefixOf_append_self (p t : Str) : p.isPrefixOf (p ++ t) = true := by
  simp [List.isPrefixOf_iff_prefix]

theorem isPrefixOf_mismatch (p l : Str) (i : Nat) (hi : i < p.length)
    (h : l.get? i ≠ p.get? i) : p.isPrefixOf l = false := by
  by_contra hcon
  rw [Bool.not_eq_false, List.isPrefixOf_iff_prefix] at hcon
  obtain ⟨t, rfl⟩ := hcon
  exact h (List.get?_append hi)

theorem isPrefixOf_false_head (p : Str) (a c : Char) (r : Str)
    (hp : p.head? = some a) (hne : a ≠ c) : p.isPrefixOf (c :: r) = false := by
  cases p with
  | nil => cases hp
  | cons b bs =>
    obtain rfl : b = a := by simpa using hp
    apply isPrefixOf_mismatch _ _ 0 (by simp)
    simpa using fun e => hne e.symm

/-! Behaviour of the parser's elif chain on each line shape produced by the
report generator. -/

theorem applyField_type (cur : ParsedRecord) (x : Str) :
    applyField cur (str "  Type: " ++ x) =
      { cur with file_type := some (pyStrip x) } := by
  have h1 := isPrefixOf_append_self (str "  Type: ") x
  have h2 : (str "  Type: " ++ x).drop 8 = x := rfl
  simp [applyField, h1, h2]

theorem applyField_sr (cur : ParsedRecord) (x : Str) :
    applyField cur (str "  Sample Rate: " ++ x) =
      { cur with sample_rate := some (parseIntField (' ' :: x)) } := by
  have h0 : (str "  Type: ").isPrefixOf (str "  Sample Rate: " ++ x) = false := rfl
  have h1 := isPrefixOf_append_self (str "  Sample Rate: ") x
  have h2 : (str "  Sample Rate: " ++ x).drop 14 = ' ' :: x := rfl
  simp [applyField, h0, h1, h2]

theorem applyField_bd (cur : ParsedRecord) (x : Str) :
    applyField cur (str "  Bit Depth: " ++ x) =
      { cur with bit_depth := some (parseNoneOrInt (' ' :: x)) } := by
  have h0 : (str "  Type: ").isPrefixOf (str "  Bit Depth: " ++ x) = false := rfl
  have h0a : (str "  Sample Rate: ").isPrefixOf (str "  Bit Depth: " ++ x) = false := rfl
  have h1 := isPrefixOf_append_self (str "  Bit Depth: ") x
  have h2 : (str "  Bit Depth: " ++ x).drop 12 = ' ' :: x := rfl
  simp [applyField, h0, h0a, h1, h2]

theorem applyField_ch (cur : ParsedRecord) (x : Str) :
    applyField cur (str "  Channels: " ++ x) =
      { cur with channels := some (pyInt? (pyStrip (' ' :: x))) } := by
  have h0 : (str "  Type: ").isPrefixOf (str "  Channels: " ++ x) = false := rfl
  have h0a : (str "  Sample Rate: ").isPrefixOf (str "  Channels: " ++ x) = false := rfl
  have h0b : (str "  Bit Depth: ").isPrefixOf (str "  Channels: " ++ x) = false := rfl
  have h1 := isPrefixOf_append_self (str "  Channels: ") x
  have h2 : (str "  Channels: " ++ x).drop 11 = ' ' :: x := rfl
  simp [applyField, h0, h0a, h0b, h1, h2]

theorem applyField_br (cur : ParsedRecord) (x : Str) :
    applyField cur (str "  Bitrate: " ++ x) =
      { cur with bitrate := some (parseNoneOrInt (' ' :: x)) } := by
  have h0 : (str "  Type: ").isPrefixOf (str "  Bitrate: " ++ x) = false := rfl
  have h0a : (str "  Sample Rate: ").isPrefixOf (str "  Bitrate: " ++ x) = false := rfl
  have h0b : (str "  Bit Depth: ").isPrefixOf (str "  Bitrate: " ++ x) = false := rfl
  have h0c : (str "  Channels: ").isPrefixOf (str "  Bitrate: " ++ x) = false := rfl
  have h1 := isPrefixOf_append_self (str "  Bitrate: ") x
  have h2 : (str "  Bitrate: " ++ x).drop 10 = ' ' :: x := rfl
  simp [applyField, h0, h0a, h0b, h0c, h1, h2]

theorem applyField_cdj (cur : ParsedRecord) (x : Str) :
    applyField cur (str "  CDJ Compatible: " ++ x) =
      { cur with is_compatible := some (pyStrip (' ' :: x) == str "Yes") } := by
  have h0 : (str "  Type: ").isPrefixOf (str "  CDJ Compatible: " ++ x) = false := rfl
  have h0a : (str "  Sample Rate: ").isPrefixOf (str "  CDJ Compatible: " ++ x) = false := rfl
  have h0b : (str "  Bit Depth: ").isPrefixOf (str "  CDJ Compatible: " ++ x) = false := rfl
  have h0c : (str "  Channels: ").isPrefixOf (str "  CDJ Compatible: " ++ x) = false := rfl
  have h0d : (str "  Bitrate: ").isPrefixOf (str "  CDJ Compatible: " ++ x) = false := rfl
  have h1 := isPrefixOf_append_self (str "  CDJ Compatible: ") x
  have h2 : (str "  CDJ Compatible: " ++ x).drop 17 = ' ' :: x := rfl
  simp [applyField, h0, h0a, h0b, h0c, h0d, h1, h2]

/-! Lines the parsing loop ignores entirely. -/

theorem applyField_eq_self (cur : ParsedRecord) (line : Str)
    (h1 : (str "  Type: ").isPrefixOf line = false)
    (h2 : (str "  Sample Rate: ").isPrefixOf line = false)
    (h3 : (str "  Bit Depth: ").isPrefixOf line = false)
    (h4 : (str "  Channels: ").isPrefixOf line = false)
    (h5 : (str "  Bitrate: ").isPrefixOf line = false)
    (h6 : (str "  CDJ Compatible: ").isPrefixOf line = false) :
    applyField cur line = cur := by
  simp [applyField, h1, h2, h3, h4, h5, h6]

theorem applyField_nonspace (cur : ParsedRecord) (c : Char) (r : Str) (h : c ≠ ' ') :
    applyField cur (c :: r) = cur := by
  refine applyField_eq_self cur (c :: r) ?_ ?_ ?_ ?_ ?_ ?_ <;>
    exact isPrefixOf_false_head _ ' ' c r rfl (fun e => h e.symm)

theorem applyField_digit2 (cur : ParsedRecord) (d : Char) (r : Str)
    (hd : d.isDigit = true) : applyField cur (' ' :: ' ' :: d :: r) = cur := by
  refine applyField_eq_self cur _ ?_ ?_ ?_ ?_ ?_ ?_ <;>
  · apply isPrefixOf_mismatch _ _ 2 (by decide)
    simp only [List.get?]
    intro e
    rw [Option.some.inj e] at hd
    exact absurd hd (by decide)

theorem applyField_sp3 (cur : ParsedRecord) (r : Str) :
    applyField cur (' ' :: ' ' :: ' ' :: r) = cur := rfl

theorem applyField_dot2 (cur : ParsedRecord) (r : Str) :
    applyField cur (' ' :: ' ' :: '.' :: r) = cur := rfl

theorem applyField_nil (cur : ParsedRecord) : applyField cur [] = cur := rfl

theorem applyField_fmtline (cur : ParsedRecord) (x : Str) :
    applyField cur (str "  Format: " ++ x) = cur := rfl

theorem applyField_sizeline (cur : ParsedRecord) (x : Str) :
    applyField cur (str "  Size: " ++ x) = cur := rfl

theorem applyField_issuehdr (cur : ParsedRecord) :
    applyField cur (str "  Compatibility Issues:") = cur := rfl

/-! Single steps of the parsing loop. -/

theorem parseLoop_nil (cur : ParsedRecord) : parseLoop [] cur = flushIf cur := rfl

theorem parseLoop_cons_noFile (l : Str) (ls : List Str) (cur : ParsedRecord)
    (h : (str "File: ").isPrefixOf l = false) :
    parseLoop (l :: ls) cur = parseLoop ls (applyField cur l) := by
  simp [parseLoop, h]

theorem parseLoop_cons_file (fn : Str) (ls : List Str) (cur : ParsedRecord) :
    parseLoop ((str "File: " ++ fn) :: ls) cur =
      flushIf cur ++ parseLoop ls { filename := some (pyStrip fn) } := by
  have h1 := isPrefixOf_append_self (str "File: ") fn
  have h2 : (str "File: " ++ fn).drop 6 = fn := rfl
  simp [parseLoop, h1, h2]

/-- A report line that neither starts a record nor matches any field
branch: the parsing loop passes over it without changing its state. -/
def InertLine (l : Str) : Prop :=
  (str "File: ").isPrefixOf l = false ∧ ∀ cur, applyField cur l = cur

theorem parseLoop_inert_append (ls1 ls2 : List Str) (st : ParsedRecord)
    (h : ∀ l ∈ ls1, InertLine l) :
    parseLoop (ls1 ++ ls2) st = parseLoop ls2 st := by
  induction ls1 with
  | nil => rfl
  | cons l t ih =>
    rw [List.cons_append, parseLoop_cons_noFile _ _ _ (h l (List.mem_cons_self l t)).1,
      (h l (List.mem_cons_self l t)).2,
      ih (fun x hx => h x (List.mem_cons_of_mem l hx))]

theorem notFile_space (r : Str) : (str "File: ").isPrefixOf (' ' :: r) = false := rfl

theorem notFile_head (c : Char) (r : Str) (h : c ≠ 'F') :
    (str "File: ").isPrefixOf (c :: r) = false :=
  isPrefixOf_false_head _ 'F' c r rfl (fun e => h e.symm)

theorem inert_space (r : Str) (h : ∀ cur, applyField cur (' ' :: r) = cur) :
    InertLine (' ' :: r) := ⟨notFile_space r, h⟩

theorem inert_nonspace (c : Char) (r : Str) (hc : c ≠ ' ') (hf : c ≠ 'F') :
    InertLine (c :: r) :=
  ⟨notFile_head c r hf, fun cur => applyField_nonspace cur c r hc⟩

theorem inert_nil : InertLine [] := ⟨rfl, applyField_nil⟩

/-! Splitting the joined report back into lines. -/

theorem splitOnNl_ne_nil (s : Str) : splitOnNl s ≠ [] := by
  induction s with
  | nil => simp [splitOnNl]
  | cons c cs ih =>
    rw [splitOnNl]
    by_cases h : c = Char.ofNat 10
    · simp [h]
    · simp only [h, if_false]
      cases hs : splitOnNl cs with
      | nil => simp
      | cons t ts => simp

theorem splitOnNl_append_nl (a b : Str) :
    splitOnNl (a ++ Char.ofNat 10 :: b) = splitOnNl a ++ splitOnNl b := by
  induction a with
  | nil => simp [splitOnNl]
  | cons c cs ih =>
    by_cases h : c = Char.ofNat 10
    · subst h
      rw [List.cons_append, splitOnNl, if_pos rfl, ih, splitOnNl, if_pos rfl,
        List.cons_append]
    · rw [List.cons_append, splitOnNl, if_neg h, ih]
      obtain ⟨t, ts, hts⟩ := List.exists_cons_of_ne_nil (splitOnNl_ne_nil cs)
      rw [splitOnNl, if_neg h, hts, List.cons_append]
      rfl

theorem splitOnNl_nl_free (a : Str) (h : Char.ofNat 10 ∉ a) : splitOnNl a = [a] := by
  induction a with
  | nil => rfl
  | cons c cs ih =>
    have hc : ¬ c = Char.ofNat 10 := fun e => h (by rw [e]; exact List.mem_cons_self _ _)
    rw [splitOnNl, if_neg hc, ih (fun hm => h (List.mem_cons_of_mem c hm))]

theorem splitOnNl_trailing_nl (a : Str) (h : Char.ofNat 10 ∉ a) :
    splitOnNl (a ++ [Char.ofNat 10]) = [a, []] := by
  rw [show a ++ [Char.ofNat 10] = a ++ Char.ofNat 10 :: [] from rfl,
    splitOnNl_append_nl, splitOnNl_nl_free a h]
  rfl

theorem splitOnNl_joinNl (entries : List Str) (h : entries ≠ []) :
    splitOnNl (joinNl entries) = entries.flatMap splitOnNl := by
  induction entries with
  | nil => exact absurd rfl h
  | cons x xs ih =>
    cases xs with
    | nil => simp [joinNl, joinSep]
    | cons y t =>
      have hj : joinNl (x :: y :: t) = x ++ Char.ofNat 10 :: joinNl (y :: t) := by
        rw [joinNl, joinSep, List.append_assoc]
        rfl
      rw [hj, splitOnNl_append_nl, ih (by simp), List.flatMap_cons]
      simp [List.flatMap_cons, List.append_assoc]

theorem flatMap_splitOnNl_id (L : List Str) (h : ∀ l ∈ L, Char.ofNat 10 ∉ l) :
    L.flatMap splitOnNl = L := by
  induction L with
  | nil => rfl
  | cons l ls ih =>
    rw [List.flatMap_cons, splitOnNl_nl_free l (h l (List.mem_cons_self l ls)),
      ih (fun x hx => h x (List.mem_cons_of_mem l hx))]
    rfl

/-! Newline-freedom of the variable report content. -/

theorem nlFree_append (a b : Str) (ha : Char.ofNat 10 ∉ a) (hb : Char.ofNat 10 ∉ b) :
    Char.ofNat 10 ∉ a ++ b := by
  intro h
  rcases List.mem_append.mp h with h | h
  · exact ha h
  · exact hb h

theorem nlFree_natRepr (n : Nat) : Char.ofNat 10 ∉ natRepr n := by
  intro h
  have hd := natRepr_digits n _ h
  exact absurd hd (by decide)

theorem nlFree_optRepr (v : Option Nat) : Char.ofNat 10 ∉ optRepr v := by
  cases v with
  | none => decide
  | some n => exact nlFree_natRepr n

theorem nlFree_joinSep (sep : Str) (parts : List Str) (hsep : Char.ofNat 10 ∉ sep)
    (h : ∀ p ∈ parts, Char.ofNat 10 ∉ p) : Char.ofNat 10 ∉ joinSep sep parts := by
  induction parts with
  | nil => simp [joinSep]
  | cons x xs ih =>
    cases xs with
    | nil => exact h x (List.mem_cons_self x [])
    | cons y t =>
      rw [joinSep]
      refine nlFree_append _ _ (nlFree_append _ _ (h x (List.mem_cons_self x _)) hsep) ?_
      exact ih (fun p hp => h p (List.mem_cons_of_mem x hp))

theorem nlFree_pyListRepr (l : List Nat) : Char.ofNat 10 ∉ pyListRepr l := by
  rw [pyListRepr]
  apply nlFree_append
  · intro h
    rcases List.mem_cons.mp h with h | h
    · cases h
    · exact nlFree_joinSep (str ", ") (l.map natRepr) (by decide)
        (fun p hp => by
          obtain ⟨n, _, rfl⟩ := List.mem_map.mp hp
          exact nlFree_natRepr n) h
  · decide

theorem nlFree_srIssue (v : Option Nat) (l : List Nat) : Char.ofNat 10 ∉ srIssue v l := by
  rw [srIssue]
  refine nlFree_append _ _ (nlFree_append _ _ (nlFree_append _ _ (nlFree_append _ _
    ?_ ?_) ?_) ?_) ?_
  exacts [by decide, nlFree_optRepr v, by decide, nlFree_pyListRepr l, by decide]

theorem nlFree_bdIssue (v : Option Nat) (l : List Nat) : Char.ofNat 10 ∉ bdIssue v l := by
  rw [bdIssue]
  refine nlFree_append _ _ (nlFree_append _ _ (nlFree_append _ _ (nlFree_append _ _
    ?_ ?_) ?_) ?_) ?_
  exacts [by decide, nlFree_optRepr v, by decide, nlFree_pyListRepr l, by decide]

theorem nlFree_chIssue (l : List Nat) : Char.ofNat 10 ∉ chIssue l := by
  rw [chIssue]
  refine nlFree_append _ _ (nlFree_append _ _ ?_ ?_) ?_
  exacts [by decide, nlFree_pyListRepr l, by decide]

theorem nlFree_brLowIssue (b mn : Nat) : Char.ofNat 10 ∉ brLowIssue b mn := by
  rw [brLowIssue]
  refine nlFree_append _ _ (nlFree_append _ _ (nlFree_append _ _ (nlFree_append _ _
    ?_ ?_) ?_) ?_) ?_
  exacts [by decide, nlFree_natRepr b, by decide, nlFree_natRepr mn, by decide]

theorem nlFree_brHighIssue (b mx : Nat) : Char.ofNat 10 ∉ brHighIssue b mx := by
  rw [brHighIssue]
  refine nlFree_append _ _ (nlFree_append _ _ (nlFree_append _ _ (nlFree_append _ _
    ?_ ?_) ?_) ?_) ?_
  exacts [by decide, nlFree_natRepr b, by decide, nlFree_natRepr mx, by decide]

/-! Structure of the evaluator's violation list. -/

theorem bitrateIssues_append (rule : Option (Nat × Option Nat)) (br : Option Nat)
    (issues : List Str) :
    bitrateIssues rule br issues = issues ++ bitrateIssues rule br [] := by
  rcases rule with _ | ⟨mn, mxo⟩
  · simp [bitrateIssues]
  · rcases br with _ | b
    · simp [bitrateIssues]
    · by_cases hb : b = 0
      · simp [bitrateIssues, hb]
      · rcases mxo with _ | mx
        · by_cases h1 : mn ≠ 0 ∧ b < mn <;> simp [bitrateIssues, hb, h1]
        · by_cases h1 : mn ≠ 0 ∧ b < mn <;> by_cases h2 : mx ≠ 0 ∧ mx < b <;>
            simp [bitrateIssues, hb, h1, h2]

theorem bitrateIssues_none (rule : Option (Nat × Option Nat)) (issues : List Str) :
    bitrateIssues rule none issues = issues := by
  rcases rule with _ | ⟨mn, mxo⟩ <;> rfl

/-- The violation list of a supported format, written as one appended
filter over the four checks. -/
def evalIssues (m : Metadata) (reqs : Requirements) : List Str :=
  (if truthyList reqs.sample_rates ∧ ¬ optMem m.sample_rate (reqs.sample_rates.getD [])
    then [srIssue m.sample_rate (reqs.sample_rates.getD [])] else [])
  ++ (if truthyList reqs.bit_depths ∧ ¬ optMem m.bit_depth (reqs.bit_depths.getD [])
    then [bdIssue m.bit_depth (reqs.bit_depths.getD [])] else [])
  ++ (if truthyList reqs.channels ∧ ¬ optMem m.channels (reqs.channels.getD [])
    then [chIssue (reqs.channels.getD [])] else [])
  ++ bitrateIssues reqs.bitrate m.bitrate []

theorem check_eq_evalIssues (m : Metadata) (reqs : Requirements)
    (hreq : CDJ_REQUIREMENTS (lstripDot m.file_type) = some reqs) :
    check_compatibility m = ((evalIssues m reqs).isEmpty, evalIssues m reqs) := by
  by_cases c1 : truthyList reqs.sample_rates ∧
      ¬ optMem m.sample_rate (reqs.sample_rates.getD []) <;>
  by_cases c2 : truthyList reqs.bit_depths ∧
      ¬ optMem m.bit_depth (reqs.bit_depths.getD []) <;>
  by_cases c3 : truthyList reqs.channels ∧
      ¬ optMem m.channels (reqs.channels.getD []) <;>
  · simp only [check_compatibility, hreq, evalIssues, c1, c2, c3, if_true, if_false]
    rw [bitrateIssues_append]
    simp

theorem check_fst_iff (m : Metadata) :
    (check_compatibility m).fst = true ↔ (check_compatibility m).snd = [] := by
  cases hreq : CDJ_REQUIREMENTS (lstripDot m.file_type) with
  | none => simp [check_compatibility, hreq, fmtIssue]
  | some reqs => rw [check_eq_evalIssues m reqs hreq]; simp [List.isEmpty_iff]

theorem mem_ite_singleton {c : Prop} [Decidable c] {i x : Str}
    (h : i ∈ (if c then [x] else [])) : i = x := by
  split at h
  · simpa using h
  · simp at h

theorem bitrateIssues_mem (rule : Option (Nat × Option Nat)) (br : Option Nat)
    (i : Str) (h : i ∈ bitrateIssues rule br []) :
    (∃ b k, i = brLowIssue b k) ∨ (∃ b k, i = brHighIssue b k) := by
  rcases rule with _ | ⟨mn, mxo⟩
  · simp [bitrateIssues] at h
  · rcases br with _ | b
    · simp [bitrateIssues] at h
    · by_cases hb : b = 0
      · simp [bitrateIssues, hb] at h
      · rcases mxo with _ | mx
        · by_cases h1 : mn ≠ 0 ∧ b < mn
          · simp [bitrateIssues, hb, h1] at h
            exact Or.inl ⟨b, mn, h⟩
          · simp [bitrateIssues, hb, h1] at h
        · by_cases h1 : mn ≠ 0 ∧ b < mn <;> by_cases h2 : mx ≠ 0 ∧ mx < b <;>
            simp [bitrateIssues, hb, h1, h2] at h
          · rcases h with h | h
            · exact Or.inl ⟨b, mn, h⟩
            · exact Or.inr ⟨b, mx, h⟩
          · exact Or.inl ⟨b, mn, h⟩
          · exact Or.inr ⟨b, mx, h⟩

theorem check_issue_mem (m : Metadata) (i : Str) (h : i ∈ (check_compatibility m).snd) :
    i = fmtIssue ∨ (∃ v l, i = srIssue v l) ∨ (∃ v l, i = bdIssue v l) ∨
    (∃ l, i = chIssue l) ∨ (∃ b k, i = brLowIssue b k) ∨ (∃ b k, i = brHighIssue b k) := by
  cases hreq : CDJ_REQUIREMENTS (lstripDot m.file_type) with
  | none =>
    simp only [check_compatibility, hreq, List.mem_singleton] at h
    exact Or.inl h
  | some reqs =>
    rw [check_eq_evalIssues m reqs hreq] at h
    simp only [evalIssues, List.mem_append] at h
    rcases h with ((h | h) | h) | h
    · exact Or.inr (Or.inl ⟨_, _, mem_ite_singleton h⟩)
    · exact Or.inr (Or.inr (Or.inl ⟨_, _, mem_ite_singleton h⟩))
    · exact Or.inr (Or.inr (Or.inr (Or.inl ⟨_, mem_ite_singleton h⟩)))
    · rcases bitrateIssues_mem _ _ _ h with h | h
      · exact Or.inr (Or.inr (Or.inr (Or.inr (Or.inl h))))
      · exact Or.inr (Or.inr (Or.inr (Or.inr (Or.inr h))))

theorem nlFree_check_issues (m : Metadata) (i : Str)
    (h : i ∈ (check_compatibility m).snd) : Char.ofNat 10 ∉ i := by
  rcases check_issue_mem m i h with rfl | ⟨v, l, rfl⟩ | ⟨v, l, rfl⟩ | ⟨l, rfl⟩ |
    ⟨b, k, rfl⟩ | ⟨b, k, rfl⟩
  · decide
  · exact nlFree_srIssue v l
  · exact nlFree_bdIssue v l
  · exact nlFree_chIssue l
  · exact nlFree_brLowIssue b k
  · exact nlFree_brHighIssue b k

/-! Facts about the scanned file extensions and the statistics keys. -/

theorem audioExt_cases (k : Str) (h : k ∈ audioExtensions) :
    (∃ rest, k = '.' :: rest) ∧ pyStrip k = k ∧ Char.ofNat 10 ∉ k := by
  fin_cases h <;> exact ⟨⟨_, rfl⟩, by decide, by decide⟩

theorem mem_firstOccs_aux (n : Nat) :
    ∀ keys : List Str, keys.length ≤ n → ∀ k ∈ firstOccs keys, k ∈ keys := by
  induction n with
  | zero =>
    intro keys hlen k hk
    obtain rfl : keys = [] := List.eq_nil_of_length_eq_zero (Nat.le_zero.mp hlen)
    rw [firstOccs] at hk
    cases hk
  | succ n ih =>
    intro keys hlen k hk
    cases keys with
    | nil => rw [firstOccs] at hk; cases hk
    | cons x xs =>
      rw [firstOccs] at hk
      rcases List.mem_cons.mp hk with rfl | hk2
      · exact List.mem_cons_self _ _
      · have hle : (xs.filter (fun y => y ≠ x)).length ≤ n :=
          le_trans (List.length_filter_le _ _) (by simpa using hlen)
        exact List.mem_cons_of_mem x (List.mem_of_mem_filter (ih _ hle k hk2))

theorem mem_firstOccs (keys : List Str) (k : Str) (h : k ∈ firstOccs keys) : k ∈ keys :=
  mem_firstOccs_aux keys.length keys (le_refl _) k h

/-! Walking the parsing loop through one serialized file block. -/

theorem inert_dashline (i : Str) : InertLine (str "    - " ++ i) :=
  ⟨rfl, fun cur => applyField_sp3 cur (' ' :: '-' :: ' ' :: i)⟩

theorem parseLoop_typeline (ft : Str) (ls : List Str) (cur : ParsedRecord) :
    parseLoop ((str "  Type: " ++ ft) :: ls) cur =
      parseLoop ls { cur with file_type := some (pyStrip ft) } := by
  rw [parseLoop_cons_noFile (str "  Type: " ++ ft) ls cur rfl, applyField_type]

theorem parseLoop_fmtline (x : Str) (ls : List Str) (cur : ParsedRecord) :
    parseLoop ((str "  Format: " ++ x) :: ls) cur = parseLoop ls cur := by
  rw [parseLoop_cons_noFile (str "  Format: " ++ x) ls cur rfl, applyField_fmtline]

theorem parseLoop_sizeline (x : Str) (ls : List Str) (cur : ParsedRecord) :
    parseLoop ((str "  Size: " ++ x) :: ls) cur = parseLoop ls cur := by
  rw [parseLoop_cons_noFile (str "  Size: " ++ x) ls cur rfl, applyField_sizeline]

theorem parseLoop_srline (v : Option Nat) (ls : List Str) (cur : ParsedRecord) :
    parseLoop ((str "  Sample Rate: " ++ (optRepr v ++ str " Hz")) :: ls) cur =
      parseLoop ls { cur with sample_rate := some v } := by
  rw [parseLoop_cons_noFile (str "  Sample Rate: " ++ (optRepr v ++ str " Hz")) ls cur rfl,
    applyField_sr, parseIntField_sr]

theorem parseLoop_bdline (v : Option Nat) (ls : List Str) (cur : ParsedRecord) :
    parseLoop ((str "  Bit Depth: " ++ (optRepr v ++ str " bits")) :: ls) cur =
      parseLoop ls { cur with bit_depth := some v } := by
  rw [parseLoop_cons_noFile (str "  Bit Depth: " ++ (optRepr v ++ str " bits")) ls cur rfl,
    applyField_bd, parseNoneOrInt_bd]

theorem parseLoop_chline (v : Option Nat) (ls : List Str) (cur : ParsedRecord) :
    parseLoop ((str "  Channels: " ++ optRepr v) :: ls) cur =
      parseLoop ls { cur with channels := some v } := by
  rw [parseLoop_cons_noFile (str "  Channels: " ++ optRepr v) ls cur rfl,
    applyField_ch, chVal]

theorem parseLoop_brlines (br : Option Nat) (rest : List Str) (st : ParsedRecord) :
    parseLoop ((match br with
      | some b => if b ≠ 0 then [str "  Bitrate: " ++ (natRepr b ++ str " kbps")] else []
      | none => []) ++ rest) st =
    parseLoop rest (match br with
      | some b => if b = 0 then st else { st with bitrate := some (some b) }
      | none => st) := by
  cases br with
  | none => rfl
  | some b =>
    by_cases hb : b = 0
    · simp [hb]
    · simp only [hb, ne_eq, not_false_eq_true, if_true, if_false, List.cons_append,
        List.nil_append]
      rw [parseLoop_cons_noFile (str "  Bitrate: " ++ (natRepr b ++ str " kbps")) rest st rfl,
        applyField_br, parseNoneOrInt_br]

theorem parseLoop_cdjline (flag : Bool) (rest : List Str) (st : ParsedRecord) :
    parseLoop ((str "  CDJ Compatible: " ++ (if flag then str "Yes" else str "No")) :: rest)
      st = parseLoop rest { st with is_compatible := some flag } := by
  cases flag
  · rw [if_neg (by decide : ¬ (false = true)),
      parseLoop_cons_noFile (str "  CDJ Compatible: " ++ str "No") rest st rfl,
      applyField_cdj, show (pyStrip (' ' :: str "No") == str "Yes") = false from by decide]
  · rw [if_pos rfl,
      parseLoop_cons_noFile (str "  CDJ Compatible: " ++ str "Yes") rest st rfl,
      applyField_cdj, show (pyStrip (' ' :: str "Yes") == str "Yes") = true from by decide]

theorem parseLoop_issuelines (issues : List Str) (rest : List Str) (st : ParsedRecord) :
    parseLoop ((if issues = [] then []
      else str "  Compatibility Issues:" :: issues.map (fun i => str "    - " ++ i))
      ++ rest) st = parseLoop rest st := by
  by_cases hiss : issues = []
  · simp [hiss]
  · simp only [hiss, if_false, List.cons_append]
    rw [parseLoop_cons_noFile (str "  Compatibility Issues:") _ st rfl, applyField_issuehdr]
    exact parseLoop_inert_append _ _ _ (fun l hl => by
      obtain ⟨i, _, rfl⟩ := List.mem_map.mp hl
      exact inert_dashline i)

theorem parseLoop_blankline (rest : List Str) (st : ParsedRecord) :
    parseLoop ([] :: rest) st = parseLoop rest st := by
  rw [parseLoop_cons_noFile [] rest st rfl, applyField_nil]

theorem parseLoop_detailBlock (e : EnrichedMetadata)
    (hstrip : pyStrip e.file_type = e.file_type) (rest : List Str) (cur : ParsedRecord) :
    parseLoop (detailBlock e ++ rest) cur = flushIf cur ++ parseLoop rest
      ⟨some (pyStrip e.filename), some e.file_type, some e.sample_rate,
       some e.bit_depth, some e.channels,
       (match e.bitrate with
        | some b => if b = 0 then none else some (some b)
        | none => none),
       some e.is_compatible⟩ := by
  rw [detailBlock]
  simp only [List.cons_append, List.nil_append, List.append_assoc, List.singleton_append]
  rw [parseLoop_cons_file]
  congr 1
  rw [parseLoop_typeline, hstrip, parseLoop_fmtline, parseLoop_sizeline,
    parseLoop_srline, parseLoop_bdline, parseLoop_chline, parseLoop_brlines,
    parseLoop_cdjline, parseLoop_issuelines, parseLoop_blankline]
  cases hbr : e.bitrate with
  | none => rfl
  | some b =>
    by_cases hb : b = 0 <;> simp [hb]

/-! Inertness of every line the report emits outside the detail blocks. -/

theorem inert_sp2_dot_or_digit (c : Char) (r : Str) (hc : c = '.' ∨ c.isDigit = true) :
    InertLine (' ' :: ' ' :: c :: r) := by
  rcases hc with rfl | hc
  · exact ⟨rfl, fun cur => applyField_dot2 cur r⟩
  · exact ⟨notFile_space _, fun cur => applyField_digit2 cur c r hc⟩

theorem numStatKeys_mem (field : Metadata → Option Nat) (files : List Metadata) (k : Str)
    (h : k ∈ numStatKeys field files) : ∃ r, k = natRepr r := by
  rw [numStatKeys] at h
  obtain ⟨m, _, hk⟩ := List.mem_filterMap.mp h
  rcases hfield : field m with _ | r
  · rw [hfield] at hk; cases hk
  · rw [hfield] at hk
    by_cases hr : r = 0
    · simp [hr] at hk
    · simp only [hr, ne_eq, not_false_eq_true, if_true, Option.some.injEq] at hk
      exact ⟨r, hk.symm⟩

theorem nlFree_pctRepr (c n : Nat) : Char.ofNat 10 ∉ pctRepr c n := by
  rw [pctRepr]
  refine nlFree_append _ _ (nlFree_append _ _ (nlFree_natRepr _) (by decide))
    (nlFree_natRepr _)

theorem inert_split_trailing (body : Str) (hbody : InertLine body)
    (hnl : Char.ofNat 10 ∉ body) :
    ∀ l ∈ splitOnNl (body ++ [Char.ofNat 10]), InertLine l := by
  intro l hl
  rw [splitOnNl_trailing_nl body hnl] at hl
  rcases List.mem_cons.mp hl with rfl | hl2
  · exact hbody
  · rcases List.mem_singleton.mp hl2 with rfl
    exact inert_nil

theorem inert_statline_entry (unit : Str) (keys : List Str) (e : Str)
    (he : e ∈ statLines unit keys)
    (hkeys : ∀ k ∈ keys, (∃ rest, k = '.' :: rest) ∨ (∃ c cs, k = c :: cs ∧ c.isDigit = true))
    (hnl : ∀ k ∈ keys, Char.ofNat 10 ∉ k) (hunit : Char.ofNat 10 ∉ unit) :
    ∀ l ∈ splitOnNl e, InertLine l := by
  obtain ⟨k, hkmem, rfl⟩ := List.mem_map.mp (by rw [statLines] at he; exact he)
  have hknl := hnl k (mem_firstOccs _ _ hkmem)
  intro l hl
  rw [splitOnNl_nl_free _ (by
    refine nlFree_append _ _ (nlFree_append _ _ (nlFree_append _ _ (nlFree_append _ _
      (nlFree_append _ _ (by decide) hknl) hunit) (by decide)) (nlFree_natRepr _))
      (by decide))] at hl
  rcases List.mem_singleton.mp hl with rfl
  rcases hkeys k (mem_firstOccs _ _ hkmem) with ⟨rest, hk⟩ | ⟨c, cs, hk, hc⟩
  · subst hk
    exact inert_sp2_dot_or_digit '.' _ (Or.inl rfl)
  · subst hk
    exact inert_sp2_dot_or_digit c _ (Or.inr hc)

theorem errorEntries_inert (errs : List Str) (herrs : ∀ e ∈ errs, Char.ofNat 10 ∉ e) :
    ∀ l ∈ (errorEntries errs).flatMap splitOnNl, InertLine l := by
  intro l hl
  rw [errorEntries] at hl
  by_cases h : errs = []
  · simp [h] at hl
  · simp only [h, if_false] at hl
    obtain ⟨e, he, hle⟩ := List.mem_flatMap.mp hl
    rcases List.mem_cons.mp he with rfl | he2
    · rw [show splitOnNl (str "\n=== Files with Errors ===\n") =
        [[], str "=== Files with Errors ===", []] from rfl] at hle
      simp only [List.mem_cons, List.not_mem_nil, or_false, List.mem_singleton] at hle
      rcases hle with rfl | rfl | rfl
      · exact inert_nil
      · exact ⟨rfl, fun cur => rfl⟩
      · exact inert_nil
    · obtain ⟨f, hf, rfl⟩ := List.mem_map.mp he2
      rw [splitOnNl_nl_free _ (nlFree_append _ _ (by decide) (herrs f hf))] at hle
      rcases List.mem_singleton.mp hle with rfl
      exact ⟨rfl, fun cur => applyField_nonspace cur '-' (' ' :: f) (by decide)⟩

theorem summaryEntries_inert (now dir : Str) (af : List EnrichedMetadata) (errs : List Str)
    (hnow : Char.ofNat 10 ∉ now) (hdir : Char.ofNat 10 ∉ dir)
    (hfmt : ∀ e ∈ af, e.file_type ∈ audioExtensions) :
    ∀ l ∈ (summaryEntries now dir af errs).flatMap splitOnNl, InertLine l := by
  intro l hl
  obtain ⟨e, he, hle⟩ := List.mem_flatMap.mp hl
  simp only [summaryEntries, List.mem_append, List.mem_cons, List.not_mem_nil, or_false,
    or_assoc, List.mem_singleton] at he
  rcases he with rfl | rfl | rfl | rfl | rfl | rfl | rfl | rfl | rfl | rfl | rfl |
    hS | rfl | hS | rfl | hS | rfl | hS | rfl
  · exact inert_split_trailing (str "=== Audio Files Technical Report ===")
      ⟨rfl, fun cur => rfl⟩ (by decide) l hle
  · rw [splitOnNl_nl_free _ (nlFree_append _ _ (by decide) hnow)] at hle
    rcases List.mem_singleton.mp hle with rfl
    exact ⟨rfl, fun cur => applyField_nonspace cur 'G' (str "enerated on: " ++ now) (by decide)⟩
  · rw [splitOnNl_nl_free _ (nlFree_append _ _ (by decide) hdir)] at hle
    rcases List.mem_singleton.mp hle with rfl
    exact ⟨rfl, fun cur => applyField_nonspace cur 'D' (str "irectory scanned: " ++ dir) (by decide)⟩
  · rw [splitOnNl_nl_free _ (nlFree_append _ _ (by decide) (nlFree_natRepr _))] at hle
    rcases List.mem_singleton.mp hle with rfl
    exact ⟨rfl, fun cur => applyField_nonspace cur 'T'
      (str "otal audio files found: " ++ natRepr af.length) (by decide)⟩
  · by_cases herr : errs = []
    · simp only [herr, if_true] at hle
      exact inert_split_trailing (str "All files processed successfully.")
        ⟨rfl, fun cur => rfl⟩ (by decide) l hle
    · simp only [herr, if_false] at hle
      exact inert_split_trailing (str "Files with errors: " ++ natRepr errs.length)
        ⟨rfl, fun cur => applyField_nonspace cur 'F'
          (str "iles with errors: " ++ natRepr errs.length) (by decide)⟩
        (nlFree_append _ _ (by decide) (nlFree_natRepr _)) l hle
  · exact inert_split_trailing (str "=== CDJ Compatibility Summary ===")
      ⟨rfl, fun cur => rfl⟩ (by decide) l hle
  · rw [splitOnNl_nl_free _ (nlFree_append _ _ (by decide) (nlFree_natRepr _))] at hle
    rcases List.mem_singleton.mp hle with rfl
    exact ⟨rfl, fun cur => applyField_nonspace cur 'C'
      (str "ompatible files: " ++ natRepr (af.filter (·.is_compatible)).length) (by decide)⟩
  · rw [splitOnNl_nl_free _ (nlFree_append _ _ (by decide) (nlFree_natRepr _))] at hle
    rcases List.mem_singleton.mp hle with rfl
    exact ⟨rfl, fun cur => applyField_nonspace cur 'I'
      (str "ncompatible files: " ++ natRepr (af.filter (fun m => !m.is_compatible)).length)
      (by decide)⟩
  · have hshape : str "Compatibility rate: " ++
        pctRepr (af.filter (·.is_compatible)).length af.length ++ str "%\n" =
        (str "Compatibility rate: " ++
          pctRepr (af.filter (·.is_compatible)).length af.length ++ ['%']) ++
          [Char.ofNat 10] := by
      rw [show (str "%\n" : Str) = '%' :: [Char.ofNat 10] from rfl, List.append_cons]
    rw [hshape] at hle
    exact inert_split_trailing (str "Compatibility rate: " ++
        pctRepr (af.filter (·.is_compatible)).length af.length ++ ['%'])
      ⟨rfl, fun cur => applyField_nonspace cur 'C'
        (str "ompatibility rate: " ++
          pctRepr (af.filter (·.is_compatible)).length af.length ++ ['%']) (by decide)⟩
      (nlFree_append _ _ (nlFree_append _ _ (by decide)
        (nlFree_pctRepr _ _)) (by decide)) l hle
  · exact inert_split_trailing (str "=== Summary Statistics ===")
      ⟨rfl, fun cur => rfl⟩ (by decide) l hle
  · rw [show splitOnNl (str "File Types:") = [str "File Types:"] from rfl] at hle
    rcases List.mem_singleton.mp hle with rfl
    exact ⟨rfl, fun cur => rfl⟩
  · refine inert_statline_entry (str "") _ e hS ?_ ?_ (by decide) l hle
    · intro k hk
      obtain ⟨e2, he2, rfl⟩ := List.mem_map.mp hk
      exact Or.inl (audioExt_cases _ (hfmt e2 he2)).1
    · intro k hk
      obtain ⟨e2, he2, rfl⟩ := List.mem_map.mp hk
      exact (audioExt_cases _ (hfmt e2 he2)).2.2
  · rw [show splitOnNl (str "\nSample Rates:") = [[], str "Sample Rates:"] from rfl] at hle
    simp only [List.mem_cons, List.not_mem_nil, or_false, List.mem_singleton] at hle
    rcases hle with rfl | rfl
    · exact inert_nil
    · exact ⟨rfl, fun cur => rfl⟩
  · refine inert_statline_entry (str " Hz") _ e hS ?_ ?_ (by decide) l hle
    · intro k hk
      obtain ⟨r, rfl⟩ := numStatKeys_mem _ _ k hk
      obtain ⟨c, cs, hrepr, hc⟩ := natRepr_head_digit r
      exact Or.inr ⟨c, cs, hrepr, hc⟩
    · intro k hk
      obtain ⟨r, rfl⟩ := numStatKeys_mem _ _ k hk
      exact nlFree_natRepr r
  · rw [show splitOnNl (str "\nBit Depths:") = [[], str "Bit Depths:"] from rfl] at hle
    simp only [List.mem_cons, List.not_mem_nil, or_false, List.mem_singleton] at hle
    rcases hle with rfl | rfl
    · exact inert_nil
    · exact ⟨rfl, fun cur => rfl⟩
  · refine inert_statline_entry (str " bits") _ e hS ?_ ?_ (by decide) l hle
    · intro k hk
      obtain ⟨r, rfl⟩ := numStatKeys_mem _ _ k hk
      obtain ⟨c, cs, hrepr, hc⟩ := natRepr_head_digit r
      exact Or.inr ⟨c, cs, hrepr, hc⟩
    · intro k hk
      obtain ⟨r, rfl⟩ := numStatKeys_mem _ _ k hk
      exact nlFree_natRepr r
  · rw [show splitOnNl (str "\nChannel Configurations:") =
      [[], str "Channel Configurations:"] from rfl] at hle
    simp only [List.mem_cons, List.not_mem_nil, or_false, List.mem_singleton] at hle
    rcases hle with rfl | rfl
    · exact inert_nil
    · exact ⟨rfl, fun cur => rfl⟩
  · refine inert_statline_entry (str " channels") _ e hS ?_ ?_ (by decide) l hle
    · intro k hk
      obtain ⟨r, rfl⟩ := numStatKeys_mem _ _ k hk
      obtain ⟨c, cs, hrepr, hc⟩ := natRepr_head_digit r
      exact Or.inr ⟨c, cs, hrepr, hc⟩
    · intro k hk
      obtain ⟨r, rfl⟩ := numStatKeys_mem _ _ k hk
      exact nlFree_natRepr r
  · rw [show splitOnNl (str "\n=== Detailed File Information ===\n") =
      [[], str "=== Detailed File Information ===", []] from rfl] at hle
    simp only [List.mem_cons, List.not_mem_nil, or_false, List.mem_singleton] at hle
    rcases hle with rfl | rfl | rfl
    · exact inert_nil
    · exact ⟨rfl, fun cur => rfl⟩
    · exact inert_nil

/-! Newline-freedom of the detail blocks and assembly of the round trip. -/

theorem detailBlock_nlFree (e : EnrichedMetadata)
    (hft : Char.ofNat 10 ∉ e.file_type) (hfn : Char.ofNat 10 ∉ e.filename)
    (hfmt : ∀ f, e.format = some f → Char.ofNat 10 ∉ f)
    (hiss : ∀ i ∈ e.compatibility_issues, Char.ofNat 10 ∉ i) :
    ∀ l ∈ detailBlock e, Char.ofNat 10 ∉ l := by
  intro l hl
  rw [detailBlock] at hl
  simp only [List.mem_append, List.mem_cons, List.not_mem_nil, or_false, or_assoc,
    List.mem_singleton] at hl
  rcases hl with rfl | rfl | rfl | rfl | rfl | rfl | rfl | hbr | rfl | hissline | rfl
  · exact nlFree_append _ _ (by decide) hfn
  · exact nlFree_append _ _ (by decide) hft
  · rcases hfm : e.format with _ | f
    · decide
    · exact nlFree_append _ _ (by decide) (hfmt f hfm)
  · refine nlFree_append _ _ (nlFree_append _ _ (by decide) (nlFree_natRepr _)) (by decide)
  · refine nlFree_append _ _ (nlFree_append _ _ (by decide) (nlFree_optRepr _)) (by decide)
  · refine nlFree_append _ _ (nlFree_append _ _ (by decide) (nlFree_optRepr _)) (by decide)
  · exact nlFree_append _ _ (by decide) (nlFree_optRepr _)
  · rcases hbrv : e.bitrate with _ | b <;> rw [hbrv] at hbr
    · simp at hbr
    · by_cases hb : b = 0
      · simp [hb] at hbr
      · simp only [hb, ne_eq, not_false_eq_true, if_true, List.mem_singleton] at hbr
        subst hbr
        refine nlFree_append _ _ (nlFree_append _ _ (by decide) (nlFree_natRepr _)) (by decide)
  · cases hfl : e.is_compatible <;> decide
  · by_cases hi0 : e.compatibility_issues = []
    · simp [hi0] at hissline
    · simp only [hi0, if_false, List.mem_cons] at hissline
      rcases hissline with rfl | hmap
      · decide
      · obtain ⟨i, hi, rfl⟩ := List.mem_map.mp hmap
        exact nlFree_append _ _ (by decide) (hiss i hi)
  · simp

theorem detailBlock_enrich_nlFree (m : Metadata) (hwf : scanWF m) :
    ∀ l ∈ detailBlock (enrich m), Char.ofNat 10 ∉ l := by
  obtain ⟨hft, hfn, hfmt⟩ := hwf
  refine detailBlock_nlFree (enrich m) (audioExt_cases _ hft).2.2 hfn ?_ ?_
  · intro f hf
    have hf2 : m.format = some f := hf
    have hfmt2 : (match m.format with
      | some f => Char.ofNat 10 ∉ f
      | none => True) := hfmt
    rw [hf2] at hfmt2
    exact hfmt2
  · intro i hi
    exact nlFree_check_issues m i hi

theorem flushIf_of_filename (r : ParsedRecord) (x : Str) (h : r.filename = some x) :
    flushIf r = [r] := by
  rw [flushIf, if_neg]
  intro e
  rw [e] at h
  cases h

theorem parseLoop_blocks (files : List Metadata)
    (hwf : ∀ m ∈ files, m.file_type ∈ audioExtensions)
    (tail : List Str) (htail : ∀ l ∈ tail, InertLine l) (st : ParsedRecord) :
    parseLoop ((files.map enrich).flatMap detailBlock ++ tail) st =
      flushIf st ++ files.map recordOf := by
  induction files generalizing st with
  | nil =>
    simp only [List.map_nil, List.flatMap_nil, List.nil_append, List.map_nil]
    rw [← List.append_nil tail, parseLoop_inert_append tail [] st htail, parseLoop_nil]
    simp
  | cons m fs ih =>
    simp only [List.map_cons, List.flatMap_cons, List.append_assoc]
    rw [parseLoop_detailBlock (enrich m)
      ((audioExt_cases _ (hwf m (List.mem_cons_self m fs))).2.1),
      ih (fun x hx => hwf x (List.mem_cons_of_mem m hx))]
    congr 1

theorem parse_reportEntries (now dir : Str) (files : List Metadata) (errs : List Str)
    (hwf : ∀ m ∈ files, scanWF m) (hnow : Char.ofNat 10 ∉ now)
    (hdir : Char.ofNat 10 ∉ dir) (herrs : ∀ e ∈ errs, Char.ofNat 10 ∉ e) :
    parse_report (joinNl (reportEntries now dir (files.map enrich) errs)) =
      files.map recordOf := by
  rw [parse_report, splitOnNl_joinNl _ (by simp [reportEntries, summaryEntries]),
    reportEntries, List.flatMap_append, List.flatMap_append,
    flatMap_splitOnNl_id ((files.map enrich).flatMap detailBlock)
      (fun l hl => by
        obtain ⟨e, he, hle⟩ := List.mem_flatMap.mp hl
        obtain ⟨m, hm, rfl⟩ := List.mem_map.mp he
        exact detailBlock_enrich_nlFree m (hwf m hm) l hle),
    List.append_assoc,
    parseLoop_inert_append _ _ emptyRec
      (summaryEntries_inert now dir _ errs hnow hdir
        (fun e he => by
          obtain ⟨m, hm, rfl⟩ := List.mem_map.mp he
          exact (hwf m hm).1)),
    parseLoop_blocks files (fun m hm => (hwf m hm).1) _ (errorEntries_inert errs herrs)
      emptyRec]
  rfl

/-- Claim C1: for every list of scan-produced audio-file records, generating
the report and parsing it back with the convert stage's report parser
reproduces, for every record, the same file type, sample rate, bit depth,
channel count, bitrate (whenever a bitrate line was written, i.e. for every
truthy bitrate), and compatibility flag that were written: the parsed list
is exactly `files.map recordOf`. -/
theorem c1_report_roundtrip (now dir : Str) (files : List Metadata) (errs : List Str)
    (hwf : ∀ m ∈ files, scanWF m) (hnow : Char.ofNat 10 ∉ now)
    (hdir : Char.ofNat 10 ∉ dir) (herrs : ∀ e ∈ errs, Char.ofNat 10 ∉ e)
    (hne : files ≠ []) :
    generate_report now dir files errs =
      some (joinNl (reportEntries now dir (files.map enrich) errs)) ∧
    parse_report (joinNl (reportEntries now dir (files.map enrich) errs)) =
      files.map recordOf := by
  constructor
  · have h0 : ¬ ((files.map enrich).length = 0) := by
      simp only [List.length_map, List.length_eq_zero]
      exact hne
    simp only [generate_report, h0, if_false]
  · exact parse_reportEntries now dir files errs hwf hnow hdir herrs

/-! Concrete records used by witnesses and counterexamples. -/

/-- A 22050 Hz mono 128 kbps mp3 (the scenario record of the spec). -/
def mp3Scenario : Metadata :=
  ⟨str "track.mp3", str ".mp3", 4, some 22050, none, some 1, some 128, some (str "MP3")⟩

/-- A 44100 Hz mono 128 kbps mp3: incompatible (mono), bitrate within 32-320. -/
def mp3MidBitrate : Metadata :=
  ⟨str "a.mp3", str ".mp3", 4, some 44100, none, some 1, some 128, some (str "MP3")⟩

/-- A compatible 16-bit 44100 Hz stereo wav. -/
def wavGood : Metadata :=
  ⟨str "b.wav", str ".wav", 31, some 44100, some 16, some 2, none, some (str "WAV")⟩

/-- An ogg record: its format is not a key of the rule table. -/
def oggRec : Metadata :=
  ⟨str "c.ogg", str ".ogg", 2, none, none, none, none, none⟩

/-- A wav record with every technical field unknown. -/
def wavAllNone : Metadata :=
  ⟨str "d.wav", str ".wav", 1, none, none, none, none, none⟩

/-- A mono mp3 whose bitrate could not be read. -/
def mp3NoBitrate : Metadata :=
  ⟨str "e.mp3", str ".mp3", 3, some 44100, none, some 1, none, some (str "MP3")⟩

/-- A mono 22050 Hz 128 kbps m4a. -/
def m4aLow : Metadata :=
  ⟨str "f.m4a", str ".m4a", 5, some 22050, none, some 1, some 128, some (str "M4A")⟩

/-- A parsed record whose report block had no "CDJ Compatible:" line. -/
def parsedNoFlag : ParsedRecord := { filename := some (str "x.mp3") }

/-- Claim C1 witness at a concrete two-record list. -/
theorem c1_report_roundtrip_witness :
    generate_report (str "2024-01-01 00:00:00") (str "/music")
        [mp3Scenario, wavGood] [str "bad.flac"] =
      some (joinNl (reportEntries (str "2024-01-01 00:00:00") (str "/music")
        ([mp3Scenario, wavGood].map enrich) [str "bad.flac"])) ∧
    parse_report (joinNl (reportEntries (str "2024-01-01 00:00:00") (str "/music")
        ([mp3Scenario, wavGood].map enrich) [str "bad.flac"])) =
      [mp3Scenario, wavGood].map recordOf :=
  c1_report_roundtrip (str "2024-01-01 00:00:00") (str "/music")
    [mp3Scenario, wavGood] [str "bad.flac"]
    (by
      intro m hm
      fin_cases hm
      · exact ⟨by decide, by decide, (by decide : Char.ofNat 10 ∉ str "MP3")⟩
      · exact ⟨by decide, by decide, (by decide : Char.ofNat 10 ∉ str "WAV")⟩)
    (by decide) (by decide) (by decide) (by decide)

/-- Claim C3 counterexample: on the 22050 Hz mono 128 kbps mp3 scenario
record the planner does emit a bitrate parameter ("-b:a"), contradicting
the claim that only a sample-rate and a channel parameter are produced. -/
theorem c3_planner_counterexample :
    str "-b:a" ∈ (get_conversion_params mp3Scenario).snd := by decide

/-- Claim C3 (amended): on the 22050 Hz mono 128 kbps mp3 record the
evaluator reports exactly a sample-rate issue and a channel issue (no
bitrate issue, 128 being within 32-320) and the planner keeps target
format mp3 but emits codec/bitrate-raising parameters (because 128 < 320)
followed by the sample-rate and channel corrections. -/
theorem c3_scenario_amended :
    check_compatibility mp3Scenario =
      (false, [srIssue (some 22050) [44100], chIssue [2]]) ∧
    get_conversion_params mp3Scenario =
      (str "mp3", [str "-acodec", str "libmp3lame", str "-b:a", str "320k",
        str "-ar", str "44100", str "-ac", str "2"]) := by decide

/-- Claim C4: every record serialized into the report carries a
compatibility flag equal to the evaluator's recomputation from its own
fields, and the emitted "CDJ Compatible:" line is the rendering of exactly
that recomputed flag. -/
theorem c4_flag_invariant (files : List Metadata) (e : EnrichedMetadata)
    (he : e ∈ files.map enrich) :
    e.is_compatible = (check_compatibility e.toMetadata).fst ∧
    (str "  CDJ Compatible: " ++
      (if (check_compatibility e.toMetadata).fst then str "Yes" else str "No"))
      ∈ detailBlock e := by
  obtain ⟨m, _, rfl⟩ := List.mem_map.mp he
  constructor
  · rfl
  · have hline : str "  CDJ Compatible: " ++
        (if (check_compatibility (enrich m).toMetadata).fst then str "Yes" else str "No") =
        str "  CDJ Compatible: " ++
        (if (enrich m).is_compatible then str "Yes" else str "No") := rfl
    rw [hline, detailBlock]
    simp

/-- Claim C4 witness. -/
theorem c4_flag_invariant_witness :
    (enrich mp3Scenario).is_compatible =
      (check_compatibility (enrich mp3Scenario).toMetadata).fst ∧
    (str "  CDJ Compatible: " ++
      (if (check_compatibility (enrich mp3Scenario).toMetadata).fst then str "Yes"
       else str "No")) ∈ detailBlock (enrich mp3Scenario) :=
  c4_flag_invariant [mp3Scenario] (enrich mp3Scenario) (by decide)

/-- Claim C5: a record whose normalized file type is not a key of the rule
table is evaluated to incompatible with exactly the single
format-not-supported issue. -/
theorem c5_unknown_format (m : Metadata)
    (h : CDJ_REQUIREMENTS (lstripDot m.file_type) = none) :
    check_compatibility m = (false, [str "Format not supported by CDJs"]) := by
  simp [check_compatibility, h, fmtIssue]

/-- Claim C5 witness at an ogg record. -/
theorem c5_unknown_format_witness :
    check_compatibility oggRec = (false, [str "Format not supported by CDJs"]) :=
  c5_unknown_format oggRec (by decide)

/-- Claim C9: on an empty record list generate_report fails (the
compatibility-rate line divides by the record count with no guard, a
ZeroDivisionError); on any nonempty list it produces a report. -/
theorem c9_empty_scan (now dir : Str) (errs : List Str) (files : List Metadata) :
    generate_report now dir [] errs = none ∧
    (files ≠ [] → (generate_report now dir files errs).isSome = true) := by
  constructor
  · rfl
  · intro hne
    have h0 : ¬ ((files.map enrich).length = 0) := by
      simp only [List.length_map, List.length_eq_zero]
      exact hne
    simp only [generate_report, h0, if_false, Option.isSome_some]

/-- Claim C9 witness. -/
theorem c9_empty_scan_witness :
    generate_report (str "t") (str "/d") [] [] = none ∧
    (generate_report (str "t") (str "/d") [wavGood] []).isSome = true :=
  ⟨(c9_empty_scan (str "t") (str "/d") [] [wavGood]).1,
   (c9_empty_scan (str "t") (str "/d") [] [wavGood]).2 (by decide)⟩

/-- Claim C10: a parsed record lacking a "CDJ Compatible:" line has its
flag default to true, so it is never selected into the list of files the
conversion loop processes. -/
theorem c10_missing_flag (rs : List ParsedRecord) (r : ParsedRecord)
    (h : r.is_compatible = none) :
    getIsCompatible r = true ∧ r ∉ incompatibleFiles rs := by
  constructor
  · rw [getIsCompatible, h]
    rfl
  · intro hmem
    rw [incompatibleFiles] at hmem
    have hkeep := List.of_mem_filter hmem
    rw [getIsCompatible, h] at hkeep
    simp at hkeep

/-- Claim C10 witness. -/
theorem c10_missing_flag_witness :
    getIsCompatible parsedNoFlag = true ∧
    parsedNoFlag ∉ incompatibleFiles [parsedNoFlag] :=
  c10_missing_flag [parsedNoFlag] parsedNoFlag rfl

/-- Claim C6: for a supported format, whenever the rule constrains sample
rate (resp. bit depth, channels) with a truthy (nonempty) allowed set, a
missing value for that field counts as a non-match: the corresponding
violation is appended and the record is incompatible. -/
theorem c6_missing_field (m : Metadata) (reqs : Requirements)
    (hreq : CDJ_REQUIREMENTS (lstripDot m.file_type) = some reqs) :
    ((truthyList reqs.sample_rates = true ∧ m.sample_rate = none) →
      (check_compatibility m).fst = false ∧
      srIssue m.sample_rate (reqs.sample_rates.getD []) ∈ (check_compatibility m).snd) ∧
    ((truthyList reqs.bit_depths = true ∧ m.bit_depth = none) →
      (check_compatibility m).fst = false ∧
      bdIssue m.bit_depth (reqs.bit_depths.getD []) ∈ (check_compatibility m).snd) ∧
    ((truthyList reqs.channels = true ∧ m.channels = none) →
      (check_compatibility m).fst = false ∧
      chIssue (reqs.channels.getD []) ∈ (check_compatibility m).snd) := by
  rw [check_eq_evalIssues m reqs hreq]
  refine ⟨fun ⟨htr, hnone⟩ => ?_, fun ⟨htr, hnone⟩ => ?_, fun ⟨htr, hnone⟩ => ?_⟩
  · have hc : truthyList reqs.sample_rates = true ∧
        ¬ optMem m.sample_rate (reqs.sample_rates.getD []) = true := by
      rw [hnone]
      exact ⟨htr, by simp [optMem]⟩
    constructor
    · simp [evalIssues, hc, List.isEmpty_iff]
    · simp [evalIssues, hc]
  · have hc : truthyList reqs.bit_depths = true ∧
        ¬ optMem m.bit_depth (reqs.bit_depths.getD []) = true := by
      rw [hnone]
      exact ⟨htr, by simp [optMem]⟩
    constructor
    · simp [evalIssues, hc, List.isEmpty_iff]
    · simp [evalIssues, hc]
  · have hc : truthyList reqs.channels = true ∧
        ¬ optMem m.channels (reqs.channels.getD []) = true := by
      rw [hnone]
      exact ⟨htr, by simp [optMem]⟩
    constructor
    · simp [evalIssues, hc, List.isEmpty_iff]
    · simp [evalIssues, hc]

/-- Claim C6 witness at a wav record with all technical fields unknown. -/
theorem c6_missing_field_witness :
    (check_compatibility wavAllNone).fst = false ∧
    srIssue none [44100, 48000] ∈ (check_compatibility wavAllNone).snd ∧
    bdIssue none [16, 24] ∈ (check_compatibility wavAllNone).snd ∧
    chIssue [2] ∈ (check_compatibility wavAllNone).snd := by
  have h := c6_missing_field wavAllNone
    ⟨some [44100, 48000], some [16, 24], some [2], none⟩ (by decide)
  exact ⟨(h.1 ⟨by decide, rfl⟩).1, (h.1 ⟨by decide, rfl⟩).2,
    (h.2.1 ⟨by decide, rfl⟩).2, (h.2.2 ⟨by decide, rfl⟩).2⟩

/-! Claim C8: unknown bitrate on a lossy format is silently accepted. -/

theorem lossy_key_cases (m : Metadata) (reqs : Requirements)
    (hreq : CDJ_REQUIREMENTS (lstripDot m.file_type) = some reqs)
    (hlossy : reqs.bitrate.isSome = true) :
    lstripDot m.file_type = str "mp3" ∨ lstripDot m.file_type = str "m4a" := by
  rw [CDJ_REQUIREMENTS] at hreq
  split_ifs at hreq with h1 h2 h3 h4 h5
  · obtain rfl := Option.some.inj hreq
    simp at hlossy
  · exact Or.inl h2
  · obtain rfl := Option.some.inj hreq
    simp at hlossy
  · obtain rfl := Option.some.inj hreq
    simp at hlossy
  · exact Or.inr h5

/-- Claim C8: a record of a lossy format (its rule carries a bitrate
range) whose bitrate is unknown gets no bitrate violation from the
evaluator (no issue starting with "Bitrate ") and no bitrate/codec-raising
parameter from the planner. -/
theorem c8_unknown_bitrate (m : Metadata) (reqs : Requirements)
    (hreq : CDJ_REQUIREMENTS (lstripDot m.file_type) = some reqs)
    (hlossy : reqs.bitrate.isSome = true) (hbr : m.bitrate = none) :
    (∀ i ∈ (check_compatibility m).snd, (str "Bitrate ").isPrefixOf i = false) ∧
    str "-acodec" ∉ (get_conversion_params m).snd ∧
    str "-b:a" ∉ (get_conversion_params m).snd := by
  refine ⟨?_, ?_⟩
  · intro i hi
    rw [check_eq_evalIssues m reqs hreq] at hi
    rw [evalIssues, hbr, bitrateIssues_none, List.append_nil] at hi
    rcases List.mem_append.mp hi with hi2 | hi2
    · rcases List.mem_append.mp hi2 with hi3 | hi3
      · rw [mem_ite_singleton hi3]
        rfl
      · rw [mem_ite_singleton hi3]
        rfl
    · rw [mem_ite_singleton hi2]
      rfl
  · rcases lossy_key_cases m reqs hreq hlossy with hft | hft
    · simp only [get_conversion_params, hft, hbr,
        eq_false (by decide : ¬ (str "mp3" = str "wav" ∨ str "mp3" = str "aif" ∨
          str "mp3" = str "aiff")),
        eq_false (by decide : ¬ str "mp3" = str "flac"), if_false, if_true]
      constructor <;> (split_ifs <;> decide)
    · simp only [get_conversion_params, hft, hbr,
        eq_false (by decide : ¬ (str "m4a" = str "wav" ∨ str "m4a" = str "aif" ∨
          str "m4a" = str "aiff")),
        eq_false (by decide : ¬ str "m4a" = str "flac"),
        eq_false (by decide : ¬ str "m4a" = str "mp3"), if_false, if_true]
      constructor <;> (split_ifs <;> decide)

/-- Claim C8 witness at an mp3 record with unknown bitrate. -/
theorem c8_unknown_bitrate_witness :
    str "-acodec" ∉ (get_conversion_params mp3NoBitrate).snd ∧
    str "-b:a" ∉ (get_conversion_params mp3NoBitrate).snd :=
  ⟨(c8_unknown_bitrate mp3NoBitrate ⟨some [44100], none, some [2], some (32, some 320)⟩
      (by decide) (by decide) rfl).2.1,
   (c8_unknown_bitrate mp3NoBitrate ⟨some [44100], none, some [2], some (32, some 320)⟩
      (by decide) (by decide) rfl).2.2⟩

/-! Claim C7: the violation list is an ordered selection without repeats. -/

/-- The six possible violations of a record, in the order the evaluator
checks them: format support, sample rate, bit depth, channels, bitrate too
low, bitrate too high. -/
def violationCandidates (m : Metadata) : List Str :=
  match CDJ_REQUIREMENTS (lstripDot m.file_type) with
  | none => [fmtIssue]
  | some reqs =>
    [fmtIssue,
     srIssue m.sample_rate (reqs.sample_rates.getD []),
     bdIssue m.bit_depth (reqs.bit_depths.getD []),
     chIssue (reqs.channels.getD []),
     brLowIssue (m.bitrate.getD 0) ((reqs.bitrate.map Prod.fst).getD 0),
     brHighIssue (m.bitrate.getD 0) ((reqs.bitrate.bind (fun p => p.snd)).getD 0)]

theorem ne_of_get2c (a b : Str) (i : Nat) (x y : Char) (hx : a.get? i = some x)
    (hy : b.get? i = some y) (hxy : x ≠ y) : a ≠ b := by
  intro e
  rw [e, hy] at hx
  exact hxy (Option.some.inj hx).symm

theorem brLow_ne_brHigh (b mn mx : Nat) : brLowIssue b mn ≠ brHighIssue b mx := by
  rw [brLowIssue, brHighIssue]
  intro h
  simp only [List.append_assoc] at h
  have h2 := List.append_cancel_left (List.append_cancel_left h)
  have hx : ((str " kbps too low. Minimum required: " ++
      (natRepr mn ++ str " kbps")) : Str).get? 10 = some 'l' := rfl
  have hy : ((str " kbps too high. Maximum allowed: " ++
      (natRepr mx ++ str " kbps")) : Str).get? 10 = some 'h' := rfl
  rw [h2, hy] at hx
  exact absurd (Option.some.inj hx) (by decide)

theorem violationCandidates_nodup (m : Metadata) : (violationCandidates m).Nodup := by
  rw [violationCandidates]
  cases CDJ_REQUIREMENTS (lstripDot m.file_type) with
  | none => simp
  | some reqs =>
    simp only [List.nodup_cons, List.mem_cons, List.not_mem_nil, or_false, not_or,
      List.nodup_nil, and_true]
    refine ⟨⟨?_, ?_, ?_, ?_, ?_⟩, ⟨?_, ?_, ?_, ?_⟩, ⟨?_, ?_, ?_⟩, ⟨?_, ?_⟩, ?_⟩
    · exact ne_of_get2c _ _ 0 'F' 'S' rfl rfl (by decide)
    · exact ne_of_get2c _ _ 0 'F' 'B' rfl rfl (by decide)
    · exact ne_of_get2c _ _ 0 'F' 'C' rfl rfl (by decide)
    · exact ne_of_get2c _ _ 0 'F' 'B' rfl rfl (by decide)
    · exact ne_of_get2c _ _ 0 'F' 'B' rfl rfl (by decide)
    · exact ne_of_get2c _ _ 0 'S' 'B' rfl rfl (by decide)
    · exact ne_of_get2c _ _ 0 'S' 'C' rfl rfl (by decide)
    · exact ne_of_get2c _ _ 0 'S' 'B' rfl rfl (by decide)
    · exact ne_of_get2c _ _ 0 'S' 'B' rfl rfl (by decide)
    · exact ne_of_get2c _ _ 0 'B' 'C' rfl rfl (by decide)
    · exact ne_of_get2c _ _ 3 ' ' 'r' rfl rfl (by decide)
    · exact ne_of_get2c _ _ 3 ' ' 'r' rfl rfl (by decide)
    · exact ne_of_get2c _ _ 0 'C' 'B' rfl rfl (by decide)
    · exact ne_of_get2c _ _ 0 'C' 'B' rfl rfl (by decide)
    · exact ⟨brLow_ne_brHigh _ _ _, not_false⟩

theorem ite_singleton_sublist {c : Prop} [Decidable c] (x : Str) :
    List.Sublist (if c then [x] else []) [x] := by
  split
  · exact List.Sublist.refl _
  · exact List.nil_sublist _

theorem bitrateIssues_some_some (mn : Nat) (mxo : Option Nat) (b : Nat) (hb : b ≠ 0) :
    bitrateIssues (some (mn, mxo)) (some b) [] =
      (if mn ≠ 0 ∧ b < mn then [brLowIssue b mn] else []) ++
      (match mxo with
       | some mx => if mx ≠ 0 ∧ mx < b then [brHighIssue b mx] else []
       | none => []) := by
  simp only [bitrateIssues]
  rw [if_pos hb]
  rcases mxo with _ | mx
  · by_cases h1 : mn ≠ 0 ∧ b < mn <;> simp [h1]
  · by_cases h1 : mn ≠ 0 ∧ b < mn <;> by_cases h2 : mx ≠ 0 ∧ mx < b <;> simp [h1, h2]

theorem bitrateIssues_sublist (rule : Option (Nat × Option Nat)) (br : Option Nat) :
    List.Sublist (bitrateIssues rule br [])
      [brLowIssue (br.getD 0) ((rule.map Prod.fst).getD 0),
       brHighIssue (br.getD 0) ((rule.bind (fun p => p.snd)).getD 0)] := by
  rcases rule with _ | ⟨mn, mxo⟩
  · exact List.nil_sublist _
  · rcases br with _ | b
    · exact List.nil_sublist _
    · by_cases hb : b = 0
      · have h0 : bitrateIssues (some (mn, mxo)) (some b) [] = [] := by
          simp [bitrateIssues, hb]
        rw [h0]
        exact List.nil_sublist _
      · rw [bitrateIssues_some_some mn mxo b hb,
          show ((some (mn, mxo)).map Prod.fst).getD 0 = mn from rfl,
          show (((some (mn, mxo)).bind (fun p => p.snd)).getD 0 : Nat) = mxo.getD 0
            from rfl,
          show ((some b : Option Nat).getD 0) = b from rfl]
        rcases mxo with _ | mx
        · by_cases h1 : mn ≠ 0 ∧ b < mn
          · rw [if_pos h1, List.append_nil]
            exact List.cons_sublist_cons.mpr (List.nil_sublist _)
          · rw [if_neg h1]
            exact List.nil_sublist _
        · rw [show (match some mx with
            | some mx => if mx ≠ 0 ∧ mx < b then [brHighIssue b mx] else []
            | none => ([] : List Str)) =
              if mx ≠ 0 ∧ mx < b then [brHighIssue b mx] else [] from rfl]
          by_cases h1 : mn ≠ 0 ∧ b < mn <;> by_cases h2 : mx ≠ 0 ∧ mx < b
          · rw [if_pos h1, if_pos h2]
            exact List.Sublist.refl _
          · rw [if_pos h1, if_neg h2, List.append_nil]
            exact List.cons_sublist_cons.mpr (List.nil_sublist _)
          · rw [if_neg h1, if_pos h2, List.nil_append]
            exact List.Sublist.cons _ (List.Sublist.refl _)
          · rw [if_neg h1, if_neg h2]
            exact List.nil_sublist _

/-- Claim C7: the evaluator returns a boolean verdict that holds exactly
when the violation list is empty, and the violation list is a sublist of
the six pairwise-distinct candidate violations in the fixed check order
(format support, sample rate, bit depth, channels, bitrate too low,
bitrate too high) — hence at most one entry per failed constraint, with no
repeats. -/
theorem c7_verdict_order (m : Metadata) :
    ((check_compatibility m).fst = true ↔ (check_compatibility m).snd = []) ∧
    List.Sublist (check_compatibility m).snd (violationCandidates m) ∧
    (check_compatibility m).snd.Nodup := by
  have hsub : List.Sublist (check_compatibility m).snd (violationCandidates m) := by
    cases hreq : CDJ_REQUIREMENTS (lstripDot m.file_type) with
    | none =>
      have hch : (check_compatibility m).snd = [fmtIssue] := by
        simp [check_compatibility, hreq]
      rw [hch, violationCandidates, hreq]
    | some reqs =>
      have hch : (check_compatibility m).snd = evalIssues m reqs := by
        rw [check_eq_evalIssues m reqs hreq]
      rw [hch]
      simp only [violationCandidates, hreq]
      refine List.Sublist.cons _ ?_
      rw [evalIssues]
      rw [show ([srIssue m.sample_rate (reqs.sample_rates.getD []),
          bdIssue m.bit_depth (reqs.bit_depths.getD []),
          chIssue (reqs.channels.getD []),
          brLowIssue (m.bitrate.getD 0) ((reqs.bitrate.map Prod.fst).getD 0),
          brHighIssue (m.bitrate.getD 0) ((reqs.bitrate.bind (fun p => p.snd)).getD 0)] :
          List Str) =
        (([srIssue m.sample_rate (reqs.sample_rates.getD [])] ++
          [bdIssue m.bit_depth (reqs.bit_depths.getD [])]) ++
          [chIssue (reqs.channels.getD [])]) ++
          [brLowIssue (m.bitrate.getD 0) ((reqs.bitrate.map Prod.fst).getD 0),
           brHighIssue (m.bitrate.getD 0) ((reqs.bitrate.bind (fun p => p.snd)).getD 0)]
        from rfl]
      exact List.Sublist.append (List.Sublist.append (List.Sublist.append
        (ite_singleton_sublist _) (ite_singleton_sublist _)) (ite_singleton_sublist _))
        (bitrateIssues_sublist reqs.bitrate m.bitrate)
  exact ⟨check_fst_iff m, hsub, (violationCandidates_nodup m).sublist hsub⟩

/-! Claim C2: the lossy-format bitrate policy of the planner. -/

theorem optMem_single_iff (v : Option Nat) (a : Nat) :
    optMem v [a] = true ↔ v = some a := by
  cases v with
  | none => simp [optMem]
  | some n => simp [optMem]

theorem optMem_pair_iff (v : Option Nat) (a b : Nat) :
    optMem v [a, b] = true ↔ v = some a ∨ v = some b := by
  cases v with
  | none => simp [optMem]
  | some n => simp [optMem]

/-- Claim C2 counterexample: an incompatible mp3 whose known bitrate
(128) is at or above the rule-table minimum (32) still receives
bitrate-raising parameters from the planner, because convert.py compares
against 320, not 32. -/
theorem c2_bitrate_counterexample :
    (check_compatibility mp3MidBitrate).fst = false ∧
    mp3MidBitrate.bitrate = some 128 ∧ 32 ≤ 128 ∧
    str "-b:a" ∈ (get_conversion_params mp3MidBitrate).snd := by decide

/-- Claim C2 (amended): for an incompatible lossy-format record the
planner keeps the format's own codec as target; for mp3 it appends
"-acodec libmp3lame -b:a 320k" exactly when a known nonzero bitrate is
below 320 (the rule-table maximum, not the 32 kbps minimum), and for m4a
it appends "-acodec aac -b:a 256k" exactly when a known nonzero bitrate is
below the 256 kbps minimum; a known bitrate at or above that threshold
(and an unknown bitrate) yields no bitrate parameter, and only the
sample-rate and channel corrections follow. -/
theorem c2_lossy_bitrate_amended (m : Metadata)
    (hinc : (check_compatibility m).fst = false) :
    (lstripDot m.file_type = str "mp3" →
      get_conversion_params m = (str "mp3",
        (match m.bitrate with
         | some b => if b ≠ 0 ∧ b < 320 then
             [str "-acodec", str "libmp3lame", str "-b:a", str "320k"] else []
         | none => [])
        ++ (if m.sample_rate = some 44100 then [] else [str "-ar", str "44100"])
        ++ (if m.channels = some 2 then [] else [str "-ac", str "2"]))) ∧
    (lstripDot m.file_type = str "m4a" →
      get_conversion_params m = (str "m4a",
        (match m.bitrate with
         | some b => if b ≠ 0 ∧ b < 256 then
             [str "-acodec", str "aac", str "-b:a", str "256k"] else []
         | none => [])
        ++ (if m.sample_rate = some 44100 ∨ m.sample_rate = some 48000 then []
            else [str "-ar", str "44100"])
        ++ (if m.channels = some 2 then [] else [str "-ac", str "2"]))) := by
  constructor
  · intro hft
    simp only [get_conversion_params, hft,
      eq_false (by decide : ¬ (str "mp3" = str "wav" ∨ str "mp3" = str "aif" ∨
        str "mp3" = str "aiff")),
      eq_false (by decide : ¬ str "mp3" = str "flac"), if_false, if_true]
    rw [show ((CDJ_REQUIREMENTS (format_map_get (str "mp3"))).getD
        ⟨none, none, none, none⟩).sample_rates.getD [] = [44100] from rfl]
    by_cases hch : m.channels = some 2
    · rw [if_neg (by simp [hch]), if_pos hch]
      by_cases hs : m.sample_rate = some 44100
      · have hopt : optMem m.sample_rate [44100] = true := (optMem_single_iff _ _).mpr hs
        rw [if_neg (by simp [hopt]), if_pos hs]
        try simp
      · have hopt : optMem m.sample_rate [44100] = false :=
          Bool.eq_false_iff.mpr (fun ho => hs ((optMem_single_iff _ _).mp ho))
        rw [if_pos (by simp [hopt]), if_neg hs]
        try simp
    · rw [if_pos hch, if_neg hch]
      by_cases hs : m.sample_rate = some 44100
      · have hopt : optMem m.sample_rate [44100] = true := (optMem_single_iff _ _).mpr hs
        rw [if_neg (by simp [hopt]), if_pos hs]
        try simp
      · have hopt : optMem m.sample_rate [44100] = false :=
          Bool.eq_false_iff.mpr (fun ho => hs ((optMem_single_iff _ _).mp ho))
        rw [if_pos (by simp [hopt]), if_neg hs]
        try simp
  · intro hft
    simp only [get_conversion_params, hft,
      eq_false (by decide : ¬ (str "m4a" = str "wav" ∨ str "m4a" = str "aif" ∨
        str "m4a" = str "aiff")),
      eq_false (by decide : ¬ str "m4a" = str "flac"),
      eq_false (by decide : ¬ str "m4a" = str "mp3"), if_false, if_true]
    rw [show ((CDJ_REQUIREMENTS (format_map_get (str "m4a"))).getD
        ⟨none, none, none, none⟩).sample_rates.getD [] = [44100, 48000] from rfl]
    by_cases hch : m.channels = some 2
    · rw [if_neg (by simp [hch]), if_pos hch]
      by_cases hs : m.sample_rate = some 44100 ∨ m.sample_rate = some 48000
      · have hopt : optMem m.sample_rate [44100, 48000] = true :=
          (optMem_pair_iff _ _ _).mpr hs
        rw [if_neg (by simp [hopt]), if_pos hs]
        try simp
      · have hopt : optMem m.sample_rate [44100, 48000] = false :=
          Bool.eq_false_iff.mpr (fun ho => hs ((optMem_pair_iff _ _ _).mp ho))
        rw [if_pos (by simp [hopt]), if_neg hs]
        try simp
    · rw [if_pos hch, if_neg hch]
      by_cases hs : m.sample_rate = some 44100 ∨ m.sample_rate = some 48000
      · have hopt : optMem m.sample_rate [44100, 48000] = true :=
          (optMem_pair_iff _ _ _).mpr hs
        rw [if_neg (by simp [hopt]), if_pos hs]
        try simp
      · have hopt : optMem m.sample_rate [44100, 48000] = false :=
          Bool.eq_false_iff.mpr (fun ho => hs ((optMem_pair_iff _ _ _).mp ho))
        rw [if_pos (by simp [hopt]), if_neg hs]
        try simp

/-- Claim C2 witness: the amended characterization at a 128 kbps mono mp3
and a 22050 Hz mono 128 kbps m4a. -/
theorem c2_lossy_bitrate_amended_witness :
    get_conversion_params mp3MidBitrate = (str "mp3",
      [str "-acodec", str "libmp3lame", str "-b:a", str "320k",
       str "-ac", str "2"]) ∧
    get_conversion_params m4aLow = (str "m4a",
      [str "-acodec", str "aac", str "-b:a", str "256k",
       str "-ar", str "44100", str "-ac", str "2"]) := by
  constructor
  · rw [(c2_lossy_bitrate_amended mp3MidBitrate (by decide)).1 (by decide)]
    decide
  · rw [(c2_lossy_bitrate_amended m4aLow (by decide)).2 (by decide)]
    decide
